import Mathlib

/-!
# Multi-party Bulletproofs range proof: `bulletproofs/bpmp.go`

A shallow embedding of the three round functions of `bpmp.go`
(`StartMPC`, `MPCContext.PartialProve`, `MPCContext.Aggregate`) and of the
protocol run of `bpmp_test.go` (`TestMultiparty`).

Conventions of the embedding.

* `*big.Int` is `Int`; a `*big.Int` that may be `nil` is `Option Int`.
* `[]*big.Int` and `[]int64` are `List Int`; the `nil` slice is `[]`.
* `*p256.P256` is a point of an abelian group `P`, written additively
  (`Multiply` of the source is the group operation); a pointer field that may
  be unset is `Option P`.
* A Go function returning `(value, error)` returns a pair whose second
  component is `Option GoError`; `v, _ := f(..)` is `(f ..).1`.
* A run-time panic (arithmetic on a `nil` `*big.Int`) is `none` of the outer
  `Option` of `PartialProve`, `Verify` and `runProtocol`.
* The packages `util`, `util/bn`, `crypto/p256` and the rest of package
  `bulletproofs` are not among the sources: the services `bpmp.go` calls are
  fields of `Collaborators`; the vector algebra, `bn`, the Pedersen commitment
  and the verifier are modelled from the specification and marked so.
* The form of the commitments and of the updated generators, which the
  verifier's conditions (66), (67) depend on, is stated as the contracts
  `CommitContract` and `GeneratorContract` of the collaborators; the
  inner-product argument stays an external service with the contract of the
  specification.
* The definitions `specPowers`, `specInner`, .., `specT0`, `specT1`, `specT2`,
  `specDelta` write the formulas of the specification over the integers; the
  values the source computes are compared with their residues.
-/

namespace bulletproofs

/-- Go `error` values. -/
abbrev GoError := String

/-! ## Package `bn` -/

namespace bn

/-- Modelled from the spec: `bn.Add` belongs to the generic big-integer
arithmetic that the specification leaves to an external collaborator. The call
sites in `bpmp.go` fix its shape: it takes no modulus and `PartialProve`
reduces its results afterwards with `bn.Mod(., ORDER)`; it is integer
addition. -/
def Add (x y : Int) : Int := x + y

/-- Modelled from the spec: `bn.Multiply`, integer multiplication (see `Add`). -/
def Multiply (factor1 factor2 : Int) : Int := factor1 * factor2

/-- Modelled from the spec: `bn.Mod`, the reduction "modulo the field order":
the non-negative (Euclidean) residue. -/
def Mod (base modulo : Int) : Int := base % modulo

end bn

/-! ## Vector algebra (package `util`) -/

/-- Modelled from the spec: the digits of `x` in base `u`, least significant
first, `l` of them. -/
def digits (u : Int) : Nat → Int → List Int
  | 0, _ => []
  | l + 1, x => bn.Mod x u :: digits u l (x / u)

/-- Modelled from the spec: `Decompose`, the "bit-decomposition of an integer
into length-N 0/1 vector (fails with InvalidRange if the integer does not fit in
N bits)". The bit order is the one that pairs with the power vector
`[1, 2, 4, ..]`. The second component is the error; the digit vector is the
first component in either case. -/
def Decompose (x : Int) (u : Int) (l : Nat) : List Int × Option GoError :=
  (digits u l x, if 0 ≤ x ∧ x < u ^ l then none else some "InvalidRange")

/-- Modelled from the spec: `computeAR`, "aR = aL - 1 component-wise". -/
def computeAR (x : List Int) : List Int × Option GoError :=
  (x.map (fun b => b - 1), none)

/-- Modelled from the spec: `VectorCopy(a, n)`, the vector of `n` copies of `a`. -/
def VectorCopy (a : Int) (n : Nat) : List Int × Option GoError :=
  (List.replicate n a, none)

/-- Modelled from the spec: `VectorConvertToBig(a, n)`, the first `n` entries
of an `int64` vector as big integers. An input shorter than `n` is reported as
an error here; `PartialProve` only passes vectors of length `n`. -/
def VectorConvertToBig (a : List Int) (n : Nat) : List Int × Option GoError :=
  if a.length < n then ([], some "index out of range") else (a.take n, none)

/-- Modelled from the spec: `VectorAdd`, "component-wise add over the scalar
field"; fails on vectors of different lengths. -/
def VectorAdd (ORDER : Int) (a b : List Int) : List Int × Option GoError :=
  if a.length ≠ b.length then ([], some "Size of first argument is different from size of second argument.")
  else (List.zipWith (fun x y => bn.Mod (bn.Add x y) ORDER) a b, none)

/-- Modelled from the spec: `VectorSub`, "component-wise sub over the scalar
field"; fails on vectors of different lengths. -/
def VectorSub (ORDER : Int) (a b : List Int) : List Int × Option GoError :=
  if a.length ≠ b.length then ([], some "Size of first argument is different from size of second argument.")
  else (List.zipWith (fun x y => bn.Mod (x - y) ORDER) a b, none)

/-- Modelled from the spec: `VectorMul`, "component-wise multiply over the
scalar field"; fails on vectors of different lengths. -/
def VectorMul (ORDER : Int) (a b : List Int) : List Int × Option GoError :=
  if a.length ≠ b.length then ([], some "Size of first argument is different from size of second argument.")
  else (List.zipWith (fun x y => bn.Mod (bn.Multiply x y) ORDER) a b, none)

/-- Modelled from the spec: `VectorScalarMul`, "scalar-vector multiply" over
the scalar field. -/
def VectorScalarMul (ORDER : Int) (a : List Int) (b : Int) : List Int × Option GoError :=
  (a.map (fun x => bn.Mod (bn.Multiply x b) ORDER), none)

/-- Modelled from the spec: the accumulation loop of `ScalarProduct`; each
product is added to the running result, which is reduced modulo the field
order. -/
def scalarProductLoop (ORDER : Int) : Int → List Int → List Int → Int
  | result, x :: a, y :: b =>
      scalarProductLoop ORDER (bn.Mod (bn.Add result (bn.Multiply x y)) ORDER) a b
  | result, _, _ => result

/-- Modelled from the spec: `ScalarProduct`, the "scalar product" over the
scalar field; fails (with a `nil` result) on vectors of different lengths. -/
def ScalarProduct (ORDER : Int) (a b : List Int) : Option Int × Option GoError :=
  if a.length ≠ b.length then (none, some "Size of first argument is different from size of second argument.")
  else (some (scalarProductLoop ORDER 0 a b), none)

/-- Modelled from the spec: the loop of `powerOf`, from the current power on;
each power is reduced modulo the field order. -/
def powerOfLoop (ORDER x : Int) : Nat → Int → List Int
  | 0, _ => []
  | n + 1, current => current :: powerOfLoop ORDER x n (bn.Mod (bn.Multiply current x) ORDER)

/-- Modelled from the spec: `powerOf`, "power-vector generation (returns
[1, y, y^2, .., y^(N-1)])" over the scalar field. -/
def powerOf (ORDER x : Int) (n : Nat) : List Int := powerOfLoop ORDER x n 1

/-! ## Data model -/

/-- The setup parameters `BulletProofSetupParams`: bit-length, generators,
generator vectors and the inner-product sub-parameters. -/
structure BulletProofSetupParams (P IPP : Type) where
  N : Nat
  G : P
  H : P
  Gg : List P
  Hh : List P
  InnerProductParams : IPP
deriving DecidableEq

/-- The per-participant context `MPCContext`. `tau1` and `tau2` are set by
`StartMPC`, the only constructor of the package; the other fields are unset
(`none`) until `PartialProve` stores them. For the two struct-valued fields
`none` stands for the zero value. -/
structure MPCContext (P IPP IPF : Type) where
  tau1 : Int
  tau2 : Int
  A : Option P := none
  S : Option P := none
  T1 : Option P := none
  T2 : Option P := none
  Mu : Option Int := none
  Tprime : Option Int := none
  InnerProductProof : Option IPF := none
  Commit : Option P := none
  Params : Option (BulletProofSetupParams P IPP) := none
deriving DecidableEq

/-- The final artifact `BulletProof`. -/
structure BulletProof (P IPP IPF : Type) where
  V : Option P := none
  A : Option P := none
  S : Option P := none
  T1 : Option P := none
  T2 : Option P := none
  Taux : Option Int := none
  Mu : Option Int := none
  Tprime : Option Int := none
  InnerProductProof : Option IPF := none
  Commit : Option P := none
  Params : Option (BulletProofSetupParams P IPP) := none
deriving DecidableEq

/-- The services `bpmp.go` consumes from the rest of the repository, taken as
parameters: the field order, the curve generator of `ScalarBaseMult`, the
Fiat-Shamir oracle, the vector commitments, the generator update and the
inner-product argument. Each is a function of its arguments alone. -/
structure Collaborators (P IPP IPF : Type) where
  ORDER : Int
  base : P
  HashBP : P → P → Int × Int × Option GoError
  commitVector : List Int → List Int → Int → P → List P → List P → Nat → P
  commitVectorBig : List Int → List Int → Int → P → List P → List P → Nat → P
  updateGenerators : List P → Int → Nat → List P
  setupInnerProduct : P → List P → List P → Option Int → Nat → IPP × Option GoError
  commitInnerProduct : List P → List P → List Int → List Int → P
  proveInnerProduct : List Int → List Int → P → IPP → IPF × Option GoError
  verifyInnerProduct : IPF → Bool × Option GoError

/-- One index of the length-N vectors of `PartialProve`: the bit `a` of `aL`,
the entries `s`, `r` of `sL`, `sR`, and the entries `Y`, `T` of the power
vectors of `y` and of 2. Used to state the algebra of the vectors index by
index. -/
structure Row where
  a : Int
  s : Int
  r : Int
  Y : Int
  T : Int

/-- The outcome of `rand.Int(rand.Reader, max)` of the Go standard library: an
integer of `[0, max)`. -/
abbrev RandInt (max : Int) := { t : Int // 0 ≤ t ∧ t < max }

section Model

variable {P IPP IPF : Type} [AddCommGroup P]

/-! ## Group arithmetic (package `p256`) -/

/-- Modelled from the spec: `scalarMultiply(point, scalar)` of GroupArithmetic. -/
def ScalarMult (a : P) (n : Int) : P := n • a

/-- Modelled from the spec: `ScalarBaseMult`, scalar multiplication of the
fixed generator G. -/
def ScalarBaseMult (env : Collaborators P IPP IPF) (n : Int) : P := ScalarMult env.base n

/-- Modelled from the spec: `combine(point, point)`, the group operation. -/
def Multiply (a b : P) : P := a + b

/-- Modelled from the spec: the Pedersen commitment helper `commit(value,
blind, H)`, "commitment = value.G + blind.H". -/
def CommitG1 (env : Collaborators P IPP IPF) (x r : Int) (h : P) : P × Option GoError :=
  (Multiply (ScalarBaseMult env x) (ScalarMult h r), none)

/-! ## Round 1 -/

/-- `StartMPC` (bpmp.go, lines 26-33). The two values `rand.Int` returns are
inputs; its error result, which the source discards, is not modelled. -/
def StartMPC (env : Collaborators P IPP IPF) (params : BulletProofSetupParams P IPP)
    (r1 r2 : RandInt env.ORDER) : MPCContext P IPP IPF × P × P :=
  let tau1 := r1.val
  let tau2 := r2.val
  let tau1H := ScalarMult params.H tau1
  let tau2H := ScalarMult params.H tau2
  ({ tau1 := tau1, tau2 := tau2 }, tau1H, tau2H)

/-! ## Round 2 -/

/-- The values `PartialProve` computes on lines 36-109, before the
participant-specific scalar: the bit vectors, the commitments, the challenges,
the polynomial coefficients and the two inner-product vectors. -/
structure Intermediates (P : Type) where
  aL : List Int
  aR : List Int
  A : P
  S : P
  y : Int
  z : Int
  t1 : Int
  t2 : Int
  T1 : P
  T2 : P
  x : Int
  bl : List Int
  br : List Int
  tprime : Option Int

/-- Lines 46-79 of `PartialProve`: the polynomial coefficients `(t1, t2)` from
the bit vectors, the randomisation vectors and the challenges `y`, `z`. The
result is `none` when the Go code panics: `big.NewInt(0).Add(sp1, sp2)` or
`bn.Mod(t2, ORDER)` on a `nil` scalar product. -/
def PartialProve.coefficients (ORDER : Int) (aL aR sL sR : List Int) (y z : Int) (N : Nat) :
    Option (Int × Int) :=
  -- compute t1: < aL - z.1^n, y^n . sR > + < sL, y^n . (aR + z . 1^n) >
  let vz := (VectorCopy z N).1
  let vy := powerOf ORDER y N
  -- aL - z.1^n
  let naL := (VectorConvertToBig aL N).1
  let aLmvz := (VectorSub ORDER naL vz).1
  -- y^n . sR
  let ynsR := (VectorMul ORDER vy sR).1
  -- scalar prod: < aL - z.1^n, y^n . sR >
  let sp1 := (ScalarProduct ORDER aLmvz ynsR).1
  -- scalar prod: < sL, y^n . (aR + z . 1^n) >
  let naR := (VectorConvertToBig aR N).1
  let aRzn := (VectorAdd ORDER naR vz).1
  let ynaRzn := (VectorMul ORDER vy aRzn).1
  -- Add z^2.2^n to the result
  let p2n := powerOf ORDER 2 N
  let zsquared := bn.Multiply z z
  let z22n := (VectorScalarMul ORDER p2n zsquared).1
  let ynaRzn := (VectorAdd ORDER ynaRzn z22n).1
  let sp2 := (ScalarProduct ORDER sL ynaRzn).1
  -- compute t2: < sL, y^n . sR >
  let t2 := (ScalarProduct ORDER sL ynsR).1
  match sp1, sp2, t2 with
  | some sp1, some sp2, some t2 =>
    -- sp1 + sp2
    let t1 := sp1 + sp2
    let t1 := bn.Mod t1 ORDER
    let t2 := bn.Mod t2 ORDER
    some (t1, t2)
  | _, _, _ => none

/-- Lines 96-109 of `PartialProve`: the vectors `bl`, `br` and
`tprime = < bl, br >` from the challenge `x`. The vectors `aLmvz`, `aRzn`, `vy`
and `z22n` of lines 47-69, which these lines reuse, are computed again here. -/
def PartialProve.vectors (ORDER : Int) (aL aR sL sR : List Int) (y z x : Int) (N : Nat) :
    List Int × List Int × Option Int :=
  let vz := (VectorCopy z N).1
  let vy := powerOf ORDER y N
  let naL := (VectorConvertToBig aL N).1
  let aLmvz := (VectorSub ORDER naL vz).1
  let naR := (VectorConvertToBig aR N).1
  let aRzn := (VectorAdd ORDER naR vz).1
  let p2n := powerOf ORDER 2 N
  let zsquared := bn.Multiply z z
  let z22n := (VectorScalarMul ORDER p2n zsquared).1
  -- compute bl
  let sLx := (VectorScalarMul ORDER sL x).1
  let bl := (VectorAdd ORDER aLmvz sLx).1
  -- compute br: y^n . ( aR + z.1^n + sR.x ) + z^2 . 2^n
  let sRx := (VectorScalarMul ORDER sR x).1
  let aRzn := (VectorAdd ORDER aRzn sRx).1
  let ynaRzn := (VectorMul ORDER vy aRzn).1
  let br := (VectorAdd ORDER ynaRzn z22n).1
  -- Compute tprime = < bl, br >
  let tprime := (ScalarProduct ORDER bl br).1
  (bl, br, tprime)

/-- Lines 36-109 of `PartialProve`: commitments, challenges, coefficients and
vectors. The result is `none` when the Go code panics (see `coefficients`). -/
def PartialProve.intermediates (env : Collaborators P IPP IPF) (secret : Int)
    (publicTau1s publicTau2s : List P) (alpha rho : Int) (sL sR : List Int)
    (params : BulletProofSetupParams P IPP) : Option (Intermediates P) :=
  -- aL, aR and commitment: (A, alpha)
  let aL := (Decompose secret 2 params.N).1
  let aR := (computeAR aL).1
  let A := env.commitVector aL aR alpha params.H params.Gg params.Hh params.N
  let S := env.commitVectorBig sL sR rho params.H params.Gg params.Hh params.N
  -- Fiat-Shamir heuristic to compute challenges y and z
  let y := (env.HashBP A S).1
  let z := (env.HashBP A S).2.1
  match PartialProve.coefficients env.ORDER aL aR sL sR y z params.N with
  | none => none
  | some (t1, t2) =>
    -- compute T1
    let T1 := publicTau1s.foldl Multiply (ScalarBaseMult env t1)
    -- compute T2
    let T2 := publicTau2s.foldl Multiply (ScalarBaseMult env t2)
    -- Fiat-Shamir heuristic to compute 'random' challenge x
    let x := (env.HashBP T1 T2).1
    let v := PartialProve.vectors env.ORDER aL aR sL sR y z x params.N
    some { aL := aL, aR := aR, A := A, S := S, y := y, z := z, t1 := t1, t2 := t2,
           T1 := T1, T2 := T2, x := x, bl := v.1, br := v.2.1, tprime := v.2.2 }

/-- Lines 111-115 of `PartialProve`: taux = tau2.x^2 + tau1.x + z^2.gamma. -/
def PartialProve.taux (ORDER tau1 tau2 gamma x z : Int) : Int :=
  let taux := bn.Multiply tau2 (bn.Multiply x x)
  let taux := bn.Add taux (bn.Multiply tau1 x)
  let taux := bn.Add taux (bn.Multiply (bn.Multiply z z) gamma)
  bn.Mod taux ORDER

/-- Lines 117-120 of `PartialProve`: mu = alpha + rho.x. -/
def PartialProve.mu (ORDER alpha rho x : Int) : Int :=
  let mu := bn.Multiply rho x
  let mu := bn.Add mu alpha
  bn.Mod mu ORDER

/-- `MPCContext.PartialProve` (bpmp.go, lines 35-144). The result is `none`
when the call panics, and otherwise the context after the call with the two
results `(taux, err)`. -/
def PartialProve (env : Collaborators P IPP IPF) (context : MPCContext P IPP IPF)
    (secret gamma : Int) (publicTau1s publicTau2s : List P) (alpha rho : Int)
    (sL sR : List Int) (params : BulletProofSetupParams P IPP) :
    Option (MPCContext P IPP IPF × Option Int × Option GoError) :=
  match PartialProve.intermediates env secret publicTau1s publicTau2s alpha rho sL sR params with
  | none => none
  | some st =>
    let taux := PartialProve.taux env.ORDER context.tau1 context.tau2 gamma st.x st.z
    let mu := PartialProve.mu env.ORDER alpha rho st.x
    -- Inner Product over (g, h', P.h^-mu, tprime)
    let hprime := env.updateGenerators params.Hh st.y params.N
    match env.setupInnerProduct params.H params.Gg hprime st.tprime params.N with
    | (_, some setupErr) => some (context, none, some setupErr)
    | (ipp, none) =>
      let params1 := { params with InnerProductParams := ipp }
      let commit := env.commitInnerProduct params.Gg hprime st.bl st.br
      let proofip := (env.proveInnerProduct st.bl st.br commit ipp).1
      some ({ context with
                A := some st.A, S := some st.S, T1 := some st.T1, T2 := some st.T2,
                Mu := some mu, Tprime := st.tprime, InnerProductProof := some proofip,
                Commit := some commit, Params := some params1 },
            some taux, none)

/-! ## Round 3 -/

/-- `MPCContext.Aggregate` (bpmp.go, lines 146-166): the context after the
call (the method has a pointer receiver and assigns to none of its fields) and
the two results `(proof, err)`. -/
def Aggregate (context : MPCContext P IPP IPF) (v : P) (tauxs : List Int) :
    MPCContext P IPP IPF × BulletProof P IPP IPF × Option GoError :=
  -- Aggregate taux
  let taux := tauxs.foldl bn.Add 0
  (context,
   { V := some v, A := context.A, S := context.S, T1 := context.T1, T2 := context.T2,
     Taux := some taux, Mu := context.Mu, Tprime := context.Tprime,
     InnerProductProof := context.InnerProductProof, Commit := context.Commit,
     Params := context.Params }, none)

/-! ## The external verifier and the protocol run -/

/-- Modelled from the spec: `delta(y, z)` of the polynomial identity the
verifier checks, (z - z^2).<1, y^n> - z^3.<1, 2^n> modulo the field order. -/
def delta (ORDER : Int) (y z : Int) (N : Nat) : Int :=
  let z2 := bn.Mod (bn.Multiply z z) ORDER
  let z3 := bn.Mod (bn.Multiply z2 z) ORDER
  let v1 := (VectorCopy 1 N).1
  let sp1y := scalarProductLoop ORDER 0 v1 (powerOf ORDER y N)
  let sp12 := scalarProductLoop ORDER 0 v1 (powerOf ORDER 2 N)
  let result := bn.Mod (z - z2) ORDER
  let result := bn.Mod (bn.Multiply result sp1y) ORDER
  bn.Mod (result - bn.Multiply z3 sp12) ORDER

/-- Modelled from the spec: the loop of `VectorExp`, a vector helper of the
absent package `util`: the points `a[i]` scaled by `b[i]` and combined, from
the identity on. -/
def VectorExp.loop (a : List P) (b : List Int) : P :=
  (List.zipWith ScalarMult a b).foldl Multiply 0

/-- Modelled from the spec: `VectorExp`, the vector commitment without
blinding, g^a for a generator vector `g` and a scalar vector `a`, with which
the verifier forms g^(-z) and h'^(z.y^n + z^2.2^n); like the other vector
helpers it fails (with a `nil` result) on vectors of different lengths. -/
def VectorExp (a : List P) (b : List Int) : Option P × Option GoError :=
  if a.length ≠ b.length then (none, some "Size of first argument is different from size of second argument.")
  else (some (VectorExp.loop a b), none)

/-- Modelled from the spec: `BulletProof.Verify`, the external verifier, which
"must re-derive y, z, x exactly as in 4.2 and check the polynomial identity plus
the inner-product proof". `bpmp.go` numbers the prover's steps (41)..(62) after
the equations of the Bulletproofs protocol; the verifier's are (64)..(67). The
polynomial identity is condition (65),
Tprime.G + Taux.H = z^2.V + delta(y,z).G + x.T1 + x^2.T2. The inner product of
`PartialProve` is "over (g, h', P.h^-mu, tprime)" (line 122), so the
inner-product proof is checked in two steps: the stored commitment must be the
point the public values determine, conditions (66) and (67),
A.S^x.g^(-z).h'^(z.y^n + z^2.2^n) = h^Mu.Commit with h' the updated generators
of (64), and the inner-product argument must accept the stored proof. The
result is `none` when a field the verifier reads is unset or a vector helper
fails with a `nil` result. -/
def BulletProof.Verify [DecidableEq P] (env : Collaborators P IPP IPF)
    (proof : BulletProof P IPP IPF) : Option (Bool × Option GoError) :=
  match proof.Params, proof.V, proof.A, proof.S, proof.T1, proof.T2, proof.Taux,
      proof.Mu, proof.Tprime, proof.InnerProductProof, proof.Commit with
  | some params, some V, some A, some S, some T1, some T2, some Taux, some Mu, some Tprime,
      some proofip, some Commit =>
    -- Recover x, y, z using the Fiat-Shamir heuristic
    let x := (env.HashBP T1 T2).1
    let y := (env.HashBP A S).1
    let z := (env.HashBP A S).2.1
    -- Switch generators (64)
    let hprime := env.updateGenerators params.Hh y params.N
    -- Condition (65): left hand side
    let lhs := (CommitG1 env Tprime Taux params.H).1
    -- right hand side
    let z2 := bn.Mod (bn.Multiply z z) env.ORDER
    let x2 := bn.Mod (bn.Multiply x x) env.ORDER
    let rhs := ScalarMult V z2
    let gdelta := ScalarBaseMult env (delta env.ORDER y z params.N)
    let rhs := Multiply rhs gdelta
    let rhs := Multiply rhs (ScalarMult T1 x)
    let rhs := Multiply rhs (ScalarMult T2 x2)
    let c65 := decide (lhs = rhs)
    -- Condition (66): A.S^x
    let Sx := ScalarMult S x
    let ASx := Multiply A Sx
    -- g^-z
    let mz := env.ORDER - z
    let vmz := (VectorCopy mz params.N).1
    let gpmz := (VectorExp params.Gg vmz).1
    -- z.y^n
    let vz := (VectorCopy z params.N).1
    let vy := powerOf env.ORDER y params.N
    let zyn := (VectorMul env.ORDER vy vz).1
    -- z.y^n + z^2.2^n
    let p2n := powerOf env.ORDER 2 params.N
    let zsquared := bn.Multiply z z
    let z22n := (VectorScalarMul env.ORDER p2n zsquared).1
    let zynz22n := (VectorAdd env.ORDER zyn z22n).1
    -- h'^(z.y^n + z^2.2^n)
    let hprimeexp := (VectorExp hprime zynz22n).1
    match gpmz, hprimeexp with
    | some gpmz, some hprimeexp =>
      let lP := Multiply (Multiply ASx gpmz) hprimeexp
      -- Condition (67): h^mu.Commit
      let rP := Multiply (ScalarMult params.H Mu) Commit
      let c67 := decide (lP = rP)
      -- the inner-product proof
      let ok := (env.verifyInnerProduct proofip).1
      some (c65 && c67 && ok, none)
    | _, _ => none
  | _, _, _, _, _, _, _, _, _, _, _ => none

/-- The loop of `TestMultiparty` (bpmp_test.go, lines 43-47): `PartialProve`
on every context with its own blinding share and the shared inputs. The result
is `none` when a call panics or returns an error. -/
def proveAll (env : Collaborators P IPP IPF) (value : Int) (publicTau1s publicTau2s : List P)
    (alpha rho : Int) (sL sR : List Int) (params : BulletProofSetupParams P IPP) :
    List (MPCContext P IPP IPF) → List Int → Option (List (MPCContext P IPP IPF) × List Int)
  | context :: contexts, blind :: blinds =>
    match PartialProve env context value blind publicTau1s publicTau2s alpha rho sL sR params with
    | some (context1, some taux, none) =>
      match proveAll env value publicTau1s publicTau2s alpha rho sL sR params contexts blinds with
      | some (contexts1, tauxs) => some (context1 :: contexts1, taux :: tauxs)
      | none => none
    | _ => none
  | _, _ => some ([], [])

/-- The protocol run of `TestMultiparty` (bpmp_test.go, lines 14-62) with the
sampled values as inputs: `samples` holds each participant's `(tau1, tau2)`,
`blinds` the blinding shares the participants pass to `PartialProve`,
`committed` the blinding shares summed into the commitment `v`, and `k` is the
participant whose context aggregates (0 in the test). The result is what
`proof.Verify()` returns; it is `none` when a step panics or `PartialProve`
returns an error. -/
def runProtocolV [DecidableEq P] (env : Collaborators P IPP IPF)
    (params : BulletProofSetupParams P IPP) (value : Int) (committed blinds : List Int)
    (samples : List (RandInt env.ORDER × RandInt env.ORDER)) (alpha rho : Int)
    (sL sR : List Int) (k : Nat) : Option (Bool × Option GoError) :=
  let started := samples.map (fun s => StartMPC env params s.1 s.2)
  let participantsContexts := started.map (fun r => r.1)
  let publicTau1s := started.map (fun r => r.2.1)
  let publicTau2s := started.map (fun r => r.2.2)
  match proveAll env value publicTau1s publicTau2s alpha rho sL sR params
      participantsContexts blinds with
  | none => none
  | some (contexts1, tauxs) =>
    let blindsSum := committed.foldl bn.Add 0
    let v := (CommitG1 env value blindsSum params.H).1
    match contexts1[k]? with
    | none => none
    | some context => BulletProof.Verify env (Aggregate context v tauxs).2.1

/-- Lines 36-44 of `PartialProve`: the challenges `(y, z)` of a call, the
oracle's answer on the commitments A and S. -/
def PartialProve.challenges (env : Collaborators P IPP IPF) (secret : Int) (alpha rho : Int)
    (sL sR : List Int) (params : BulletProofSetupParams P IPP) : Int × Int :=
  let aL := (Decompose secret 2 params.N).1
  let aR := (computeAR aL).1
  let A := env.commitVector aL aR alpha params.H params.Gg params.Hh params.N
  let S := env.commitVectorBig sL sR rho params.H params.Gg params.Hh params.N
  ((env.HashBP A S).1, (env.HashBP A S).2.1)

/-! ## A small instance

The group of order 11 with toy collaborators, on which the definitions above
evaluate. -/

/-- A toy Fiat-Shamir oracle on the group of order 11; its second challenge
lies in `[1, 10]`. -/
def toyHashBP (a b : ZMod 11) : Int × Int × Option GoError :=
  ((a.val : Int) + 2 * (b.val : Int) + 3, (3 * (a.val : Int) + (b.val : Int)) % 10 + 1, none)

/-- A toy vector commitment: the blinding part and the two vectors under the
generator vectors. -/
def toyCommit (a b : List Int) (r : Int) (h : ZMod 11) (g hh : List (ZMod 11)) (_ : Nat) :
    ZMod 11 :=
  r • h + (List.zipWith (fun s p => s • p) a g).sum + (List.zipWith (fun s p => s • p) b hh).sum

/-- A toy inner-product setup: it keeps the claimed product and fails on
generator vectors whose length is not the bit-length. -/
def toySetupInnerProduct (_ : ZMod 11) (g hh : List (ZMod 11)) (c : Option Int) (n : Nat) :
    Option Int × Option GoError :=
  if g.length = n ∧ hh.length = n then (c, none) else (none, some "ParameterMismatch")

/-- A toy inner-product proof: the two vectors and the claimed product. -/
def toyProve (a b : List Int) (_ : ZMod 11) (c : Option Int) :
    (List Int × List Int × Option Int) × Option GoError :=
  ((a, b, c), none)

/-- The toy inner-product verifier recomputes the scalar product. -/
def toyVerify (pf : List Int × List Int × Option Int) : Bool × Option GoError :=
  (decide ((ScalarProduct 11 pf.1 pf.2.1).1 = pf.2.2 ∧ pf.2.2 ≠ none), none)

/-- The toy collaborators over the group of order 11. -/
def toyEnv : Collaborators (ZMod 11) (Option Int) (List Int × List Int × Option Int) where
  ORDER := 11
  base := 1
  HashBP := toyHashBP
  commitVector := toyCommit
  commitVectorBig := toyCommit
  updateGenerators := fun hh y n => (List.zipWith (fun s p => s • p) (powerOf 11 y n) hh)
  setupInnerProduct := toySetupInnerProduct
  commitInnerProduct := fun g hh a b => toyCommit a b 0 0 g hh 0
  proveInnerProduct := toyProve
  verifyInnerProduct := toyVerify

/-- Toy setup parameters with bit-length 2. -/
def toyParams : BulletProofSetupParams (ZMod 11) (Option Int) where
  N := 2
  G := 1
  H := 2
  Gg := [3, 4]
  Hh := [5, 6]
  InnerProductParams := none

/-- A sampled scalar of the toy field. -/
def toySample (t : Int) (h : 0 ≤ t ∧ t < 11) : RandInt toyEnv.ORDER := ⟨t, h⟩

/-- A context as `StartMPC` leaves it, with the given round-1 secrets. -/
def toyContext (tau1 tau2 : Int) : MPCContext (ZMod 11) (Option Int) (List Int × List Int × Option Int) :=
  { tau1 := tau1, tau2 := tau2 }

/-- The sampled scalars of two toy participants. -/
def toySamples : List (RandInt toyEnv.ORDER × RandInt toyEnv.ORDER) :=
  [(toySample 3 (by decide), toySample 4 (by decide)),
   (toySample 7 (by decide), toySample 9 (by decide))]

/-- The first broadcast list of the two toy participants. -/
def toyPublicTau1s : List (ZMod 11) :=
  toySamples.map (fun s => (StartMPC toyEnv toyParams s.1 s.2).2.1)

/-- The second broadcast list of the two toy participants. -/
def toyPublicTau2s : List (ZMod 11) :=
  toySamples.map (fun s => (StartMPC toyEnv toyParams s.1 s.2).2.2)

/-- The context of the first toy participant after its `PartialProve` call on
the secret 3 with `alpha = 6`, `rho = 7`, `sL = [1, 2]`, `sR = [3, 4]`. -/
def toyContextProved : MPCContext (ZMod 11) (Option Int) (List Int × List Int × Option Int) :=
  { tau1 := 3, tau2 := 4, A := some 8, S := some 9, T1 := some 1, T2 := some 8,
    Mu := some 3, Tprime := some 1, InnerProductProof := some ([6, 4], [3, 4], some 1),
    Commit := some 8, Params := some { toyParams with InnerProductParams := some 1 } }

/-- The context of the first toy participant after its `PartialProve` call on
the secret 3 with inputs outside `[0, 11)`: `gamma = -4`, `alpha = 13`,
`rho = -7`, `sL = [12, -2]`, `sR = [14, 4]`. -/
def toyContextWide : MPCContext (ZMod 11) (Option Int) (List Int × List Int × Option Int) :=
  { tau1 := 3, tau2 := 4, A := some 0, S := some 9, T1 := some 1, T2 := some 4,
    Mu := some 6, Tprime := some 9, InnerProductProof := some ([3, 0], [3, 10], some 9),
    Commit := some 8, Params := some { toyParams with InnerProductParams := some 9 } }

/-- Toy parameters whose generator vector `Gg` is too short for the bit-length,
on which the inner-product setup fails. -/
def toyParamsShort : BulletProofSetupParams (ZMod 11) (Option Int) :=
  { toyParams with Gg := [3] }

/-- The generator update on the group of order 11: `hh[i]` scaled by the i-th
power of the inverse of `y` modulo 11, which is the ninth power of `y`. -/
def toyUpdateGenerators (hh : List (ZMod 11)) (y : Int) (n : Nat) : List (ZMod 11) :=
  List.zipWith ScalarMult hh (powerOf 11 ((powerOf 11 y 10).getD 9 0) n)

/-- The toy collaborators with the generator update by the powers of the
inverse challenge. -/
def toyEnvInverse : Collaborators (ZMod 11) (Option Int) (List Int × List Int × Option Int) :=
  { toyEnv with updateGenerators := toyUpdateGenerators }

/-- A toy Fiat-Shamir oracle without collisions: the first challenge is
nonzero modulo 11 unless the first point is 10, and the second challenge is 0
exactly on the second point 9. -/
def toyHashZero (a b : ZMod 11) : Int × Int × Option GoError :=
  ((a.val : Int) + 12, ((b.val : Int) + 2) % 11, none)

/-- The toy collaborators with the oracle `toyHashZero`. -/
def toyEnvZero : Collaborators (ZMod 11) (Option Int) (List Int × List Int × Option Int) :=
  { toyEnvInverse with HashBP := toyHashZero }

/-! ## The discarded error results of the vector helpers -/

/-- The error results that lines 46-79 of `PartialProve` discard, one for each
call of a vector helper, in the order of the source (lines 47, 51, 52, 55, 58,
61, 62, 63, 69, 70, 71, 78). The arguments of each call are those of
`PartialProve.coefficients`. -/
def PartialProve.coefficientErrors (ORDER : Int) (aL aR sL sR : List Int) (y z : Int)
    (N : Nat) : List (Option GoError) :=
  let vz := VectorCopy z N
  let vy := powerOf ORDER y N
  let naL := VectorConvertToBig aL N
  let aLmvz := VectorSub ORDER naL.1 vz.1
  let ynsR := VectorMul ORDER vy sR
  let sp1 := ScalarProduct ORDER aLmvz.1 ynsR.1
  let naR := VectorConvertToBig aR N
  let aRzn := VectorAdd ORDER naR.1 vz.1
  let ynaRzn := VectorMul ORDER vy aRzn.1
  let p2n := powerOf ORDER 2 N
  let zsquared := bn.Multiply z z
  let z22n := VectorScalarMul ORDER p2n zsquared
  let ynaRzn2 := VectorAdd ORDER ynaRzn.1 z22n.1
  let sp2 := ScalarProduct ORDER sL ynaRzn2.1
  let t2 := ScalarProduct ORDER sL ynsR.1
  [vz.2, naL.2, aLmvz.2, ynsR.2, sp1.2, naR.2, aRzn.2, ynaRzn.2, z22n.2, ynaRzn2.2, sp2.2, t2.2]

/-- The error results that lines 96-109 of `PartialProve` discard, one for each
call of a vector helper, in the order of the source (lines 97, 98, 102, 103,
104, 106, 109). The arguments of each call are those of `PartialProve.vectors`. -/
def PartialProve.vectorErrors (ORDER : Int) (aL aR sL sR : List Int) (y z x : Int) (N : Nat) :
    List (Option GoError) :=
  let vz := (VectorCopy z N).1
  let vy := powerOf ORDER y N
  let naL := (VectorConvertToBig aL N).1
  let aLmvz := (VectorSub ORDER naL vz).1
  let naR := (VectorConvertToBig aR N).1
  let aRzn := (VectorAdd ORDER naR vz).1
  let p2n := powerOf ORDER 2 N
  let zsquared := bn.Multiply z z
  let z22n := (VectorScalarMul ORDER p2n zsquared).1
  let sLx := VectorScalarMul ORDER sL x
  let bl := VectorAdd ORDER aLmvz sLx.1
  let sRx := VectorScalarMul ORDER sR x
  let aRzn3 := VectorAdd ORDER aRzn sRx.1
  let ynaRzn3 := VectorMul ORDER vy aRzn3.1
  let br := VectorAdd ORDER ynaRzn3.1 z22n
  let tprime := ScalarProduct ORDER bl.1 br.1
  [sLx.2, bl.2, sRx.2, aRzn3.2, ynaRzn3.2, br.2, tprime.2]

/-- The error results of all the vector helper calls a `PartialProve` call
makes and discards: those of lines 46-79 and, when the call gets past line 79
without a panic, those of lines 96-109 at the challenge `x` of the call. -/
def PartialProve.helperErrors (env : Collaborators P IPP IPF) (secret : Int)
    (publicTau1s publicTau2s : List P) (alpha rho : Int) (sL sR : List Int)
    (params : BulletProofSetupParams P IPP) : List (Option GoError) :=
  let aL := (Decompose secret 2 params.N).1
  let aR := (computeAR aL).1
  let A := env.commitVector aL aR alpha params.H params.Gg params.Hh params.N
  let S := env.commitVectorBig sL sR rho params.H params.Gg params.Hh params.N
  let y := (env.HashBP A S).1
  let z := (env.HashBP A S).2.1
  PartialProve.coefficientErrors env.ORDER aL aR sL sR y z params.N ++
    match PartialProve.coefficients env.ORDER aL aR sL sR y z params.N with
    | none => []
    | some (t1, t2) =>
      let T1 := publicTau1s.foldl Multiply (ScalarBaseMult env t1)
      let T2 := publicTau2s.foldl Multiply (ScalarBaseMult env t2)
      let x := (env.HashBP T1 T2).1
      PartialProve.vectorErrors env.ORDER aL aR sL sR y z x params.N

/-! ## The polynomial coefficients in the words of the specification

Exact integer vectors: `y^n = [1, y, .., y^(N-1)]`, the scalar product
`< a, b >`, the component-wise product and sum. -/

/-- The power vector `[1, y, y^2, .., y^(N-1)]` of the specification, over the
integers. -/
def specPowers (y : Int) (N : Nat) : List Int := (List.range N).map (fun i => y ^ i)

/-- The scalar product `< a, b >` of the specification, over the integers. -/
def specInner (a b : List Int) : Int := (List.zipWith (fun x y => x * y) a b).sum

/-- The component-wise product of the specification, over the integers. -/
def specHadamard (a b : List Int) : List Int := List.zipWith (fun x y => x * y) a b

/-- The component-wise sum of the specification, over the integers. -/
def specVectorAdd (a b : List Int) : List Int := List.zipWith (fun x y => x + y) a b

/-- The vector `y^n o (aR + z.1) + z^2.2^n` of the specification. -/
def specRight (aR : List Int) (y z : Int) (N : Nat) : List Int :=
  specVectorAdd (specHadamard (specPowers y N) (aR.map (fun b => b + z)))
    ((specPowers 2 N).map (fun p => z ^ 2 * p))

/-- The constant coefficient of the specification:
t0 = < aL - z.1, y^n o (aR + z.1) + z^2.2^n >. -/
def specT0 (aL aR : List Int) (y z : Int) (N : Nat) : Int :=
  specInner (aL.map (fun a => a - z)) (specRight aR y z N)

/-- The linear coefficient of the specification:
t1 = < aL - z.1, y^n o sR > + < sL, y^n o (aR + z.1) + z^2.2^n >. -/
def specT1 (aL aR sL sR : List Int) (y z : Int) (N : Nat) : Int :=
  specInner (aL.map (fun a => a - z)) (specHadamard (specPowers y N) sR)
    + specInner sL (specRight aR y z N)

/-- The quadratic coefficient of the specification: t2 = < sL, y^n o sR >. -/
def specT2 (sL sR : List Int) (y : Int) (N : Nat) : Int :=
  specInner sL (specHadamard (specPowers y N) sR)

/-- The term delta(y, z) = (z - z^2).< 1, y^n > - z^3.< 1, 2^n > of the
verifier's polynomial check, over the integers. -/
def specDelta (y z : Int) (N : Nat) : Int :=
  (z - z ^ 2) * specInner (List.replicate N 1) (specPowers y N)
    - z ^ 3 * specInner (List.replicate N 1) (specPowers 2 N)

/-! ## The contracts of the commitment collaborators -/

/-- Modelled from the spec: the contract of the vector commitments of steps 2
and 10 of 4.2, on vectors of length N. To "commit to (aL, aR) under blinding
alpha" is to form h^alpha.g^aL.h^aR over the generators of the parameters ((44)
and (47)), and the inner-product commitment built "from (Gg, updated-Hh, bl,
br)" is g^bl.h'^br. -/
def CommitContract (env : Collaborators P IPP IPF) (params : BulletProofSetupParams P IPP) :
    Prop :=
  (∀ aL aR alpha, aL.length = params.N → aR.length = params.N →
    env.commitVector aL aR alpha params.H params.Gg params.Hh params.N
      = Multiply (Multiply (ScalarMult params.H alpha) (VectorExp.loop params.Gg aL))
          (VectorExp.loop params.Hh aR)) ∧
  (∀ sL sR rho, sL.length = params.N → sR.length = params.N →
    env.commitVectorBig sL sR rho params.H params.Gg params.Hh params.N
      = Multiply (Multiply (ScalarMult params.H rho) (VectorExp.loop params.Gg sL))
          (VectorExp.loop params.Hh sR)) ∧
  (∀ hprime bl br, hprime.length = params.N → bl.length = params.N → br.length = params.N →
    env.commitInnerProduct params.Gg hprime bl br
      = Multiply (VectorExp.loop params.Gg bl) (VectorExp.loop hprime br))

/-- Modelled from the spec: the contract of the generator update of step 10 of
4.2 at the challenge `y`, (64): the N updated generators h' are the points with
h'_i^(y^i) = Hh_i, that is h'_i = Hh_i^(y^-i). For generators Hh_i other than
the identity there are such points only when `y` is invertible modulo the
field order. -/
def GeneratorContract (env : Collaborators P IPP IPF) (params : BulletProofSetupParams P IPP)
    (y : Int) : Prop :=
  (env.updateGenerators params.Hh y params.N).length = params.N ∧
  List.zipWith ScalarMult (env.updateGenerators params.Hh y params.N) (specPowers y params.N)
    = params.Hh

end Model

/-! # Properties -/

section Scalars

variable {P IPP IPF : Type}

/-! ## Arithmetic modulo the field order

Scalars are compared in `ZMod ORDER.natAbs`, where reduction by `bn.Mod`
is invisible. -/

/-- The field order is zero in `ZMod ORDER.natAbs`. -/
theorem cast_order (q : Int) : ((q : Int) : ZMod q.natAbs) = 0 := by
  rw [CharP.intCast_eq_zero_iff (ZMod q.natAbs) q.natAbs]
  exact Int.natAbs_dvd.mpr dvd_rfl

/-- Reduction by `bn.Mod` does not change the residue. -/
theorem cast_Mod (q a : Int) : ((bn.Mod a q : Int) : ZMod q.natAbs) = (a : ZMod q.natAbs) := by
  unfold bn.Mod
  rw [Int.emod_def]
  push_cast
  rw [cast_order]
  ring

/-- The accumulation loop of `ScalarProduct` on two vectors given index by
index: the start value plus the sum of the products, as residues. -/
theorem cast_scalarProductLoop {α : Type} (q : Int) (f g : α → Int) (rows : List α) (acc : Int) :
    ((scalarProductLoop q acc (rows.map f) (rows.map g) : Int) : ZMod q.natAbs) =
      (acc : ZMod q.natAbs) + (rows.map (fun r => (f r : ZMod q.natAbs) * (g r : ZMod q.natAbs))).sum := by
  induction rows generalizing acc with
  | nil => simp [scalarProductLoop]
  | cons r rows ih =>
    simp only [List.map_cons, scalarProductLoop, List.sum_cons]
    rw [ih, cast_Mod]
    simp only [bn.Add, bn.Multiply]
    push_cast
    ring

/-! ## The vector helpers on vectors given index by index -/

/-- A component-wise operation on two vectors given index by index. -/
theorem zipWith_map_same {α β γ δ : Type} (h : β → γ → δ) (f : α → β) (g : α → γ) (l : List α) :
    List.zipWith h (l.map f) (l.map g) = l.map (fun r => h (f r) (g r)) := by
  induction l with
  | nil => rfl
  | cons r l ih => simp [ih]

/-- `VectorCopy` as a vector given index by index. -/
theorem VectorCopy_map {α : Type} (z : Int) (rows : List α) :
    VectorCopy z rows.length = (rows.map (fun _ => z), none) := by
  simp [VectorCopy]

/-- `VectorConvertToBig` on a vector of the requested length. -/
theorem VectorConvertToBig_map {α : Type} (f : α → Int) (rows : List α) :
    VectorConvertToBig (rows.map f) rows.length = (rows.map f, none) := by
  simp [VectorConvertToBig]

/-- `VectorSub` on two vectors given index by index succeeds. -/
theorem VectorSub_map {α : Type} (q : Int) (f g : α → Int) (rows : List α) :
    VectorSub q (rows.map f) (rows.map g) = (rows.map (fun r => bn.Mod (f r - g r) q), none) := by
  simp [VectorSub, zipWith_map_same]

/-- `VectorAdd` on two vectors given index by index succeeds. -/
theorem VectorAdd_map {α : Type} (q : Int) (f g : α → Int) (rows : List α) :
    VectorAdd q (rows.map f) (rows.map g) = (rows.map (fun r => bn.Mod (bn.Add (f r) (g r)) q), none) := by
  simp [VectorAdd, zipWith_map_same]

/-- `VectorMul` on two vectors given index by index succeeds. -/
theorem VectorMul_map {α : Type} (q : Int) (f g : α → Int) (rows : List α) :
    VectorMul q (rows.map f) (rows.map g) = (rows.map (fun r => bn.Mod (bn.Multiply (f r) (g r)) q), none) := by
  simp [VectorMul, zipWith_map_same]

/-- `VectorScalarMul` on a vector given index by index. -/
theorem VectorScalarMul_map {α : Type} (q : Int) (f : α → Int) (b : Int) (rows : List α) :
    VectorScalarMul q (rows.map f) b = (rows.map (fun r => bn.Mod (bn.Multiply (f r) b) q), none) := by
  simp [VectorScalarMul]

/-- `ScalarProduct` on two vectors given index by index succeeds. -/
theorem ScalarProduct_map {α : Type} (q : Int) (f g : α → Int) (rows : List α) :
    ScalarProduct q (rows.map f) (rows.map g) =
      (some (scalarProductLoop q 0 (rows.map f) (rows.map g)), none) := by
  simp [ScalarProduct]

/-- `computeAR` on a vector given index by index. -/
theorem computeAR_map {α : Type} (f : α → Int) (rows : List α) :
    computeAR (rows.map f) = (rows.map (fun r => f r - 1), none) := by
  simp [computeAR]

/-- Lines 46-79 on vectors of equal length: no panic, and the residues of
`t1` and `t2` are the sums, over the indices, of the coefficients of `x` and of
`x^2` in the product of the two inner-product vectors. -/
theorem coefficients_rows (q : Int) (rows : List Row) (y z : Int) (sL sR aL aR : List Int)
    (N : Nat) (hN : N = rows.length)
    (haL : aL = rows.map Row.a) (haR : aR = rows.map (fun r => r.a - 1))
    (hsL : sL = rows.map Row.s) (hsR : sR = rows.map Row.r)
    (hvy : powerOf q y N = rows.map Row.Y) (hp2 : powerOf q 2 N = rows.map Row.T) :
    ∃ t1 t2, PartialProve.coefficients q aL aR sL sR y z N = some (t1, t2) ∧
      (t1 : ZMod q.natAbs) = (rows.map (fun r : Row =>
        ((r.a : ZMod q.natAbs) - z) * (r.Y * r.r) +
          r.s * (r.Y * (r.a - 1 + z) + z * z * r.T))).sum ∧
      (t2 : ZMod q.natAbs) = (rows.map (fun r : Row =>
        (r.s : ZMod q.natAbs) * (r.Y * r.r))).sum := by
  subst haL haR hsL hsR hN
  simp only [PartialProve.coefficients]
  rw [hvy, hp2]
  simp only [VectorCopy_map, VectorConvertToBig_map, VectorSub_map, VectorAdd_map,
    VectorMul_map, VectorScalarMul_map, ScalarProduct_map]
  refine ⟨_, _, rfl, ?_, ?_⟩
  · simp only [cast_Mod, Int.cast_add, cast_scalarProductLoop, bn.Add, bn.Multiply,
      Int.cast_zero, zero_add, Int.cast_mul, Int.cast_sub, Int.cast_one]
    rw [← List.sum_map_add]
    congr 1
    apply List.map_congr_left
    intro r _
    ring
  · simp only [cast_Mod, Int.cast_add, cast_scalarProductLoop, bn.Add, bn.Multiply,
      Int.cast_zero, zero_add, Int.cast_mul, Int.cast_sub, Int.cast_one]

/-- Lines 96-109 on vectors of equal length: `tprime` is set, `bl` and `br`
have length `N`, and the residue of `tprime` is the sum over the indices of
(a - z + s.x).(Y.(a - 1 + z + r.x) + z^2.T). -/
theorem vectors_rows (q : Int) (rows : List Row) (y z x : Int) (sL sR aL aR : List Int)
    (N : Nat) (hN : N = rows.length)
    (haL : aL = rows.map Row.a) (haR : aR = rows.map (fun r => r.a - 1))
    (hsL : sL = rows.map Row.s) (hsR : sR = rows.map Row.r)
    (hvy : powerOf q y N = rows.map Row.Y) (hp2 : powerOf q 2 N = rows.map Row.T) :
    ∃ t, (PartialProve.vectors q aL aR sL sR y z x N).2.2 = some t ∧
      (PartialProve.vectors q aL aR sL sR y z x N).1.length = N ∧
      (PartialProve.vectors q aL aR sL sR y z x N).2.1.length = N ∧
      (t : ZMod q.natAbs) = (rows.map (fun r : Row =>
        ((r.a : ZMod q.natAbs) - z + r.s * x) *
          (r.Y * (r.a - 1 + z + r.r * x) + z * z * r.T))).sum := by
  subst haL haR hsL hsR hN
  simp only [PartialProve.vectors]
  rw [hvy, hp2]
  simp only [VectorCopy_map, VectorConvertToBig_map, VectorSub_map, VectorAdd_map,
    VectorMul_map, VectorScalarMul_map, ScalarProduct_map]
  refine ⟨_, rfl, ?_, ?_, ?_⟩
  · simp
  · simp
  · simp only [cast_Mod, Int.cast_add, cast_scalarProductLoop, bn.Add, bn.Multiply,
      Int.cast_zero, zero_add, Int.cast_mul, Int.cast_sub, Int.cast_one]
    congr 1
    apply List.map_congr_left
    intro r _
    ring

/-! ## Bit decomposition and power vectors -/

/-- The digit vector has the requested length. -/
theorem digits_length (u : Int) (l : Nat) (x : Int) : (digits u l x).length = l := by
  induction l generalizing x with
  | zero => rfl
  | succ l ih => simp [digits, ih]

/-- The power vector has the requested length. -/
theorem powerOfLoop_length (q x : Int) (n : Nat) (c : Int) : (powerOfLoop q x n c).length = n := by
  induction n generalizing c with
  | zero => rfl
  | succ n ih => simp [powerOfLoop, ih]

/-- The vector `powerOf(x, n)` has length `n`. -/
theorem powerOf_length (q x : Int) (n : Nat) : (powerOf q x n).length = n :=
  powerOfLoop_length q x n 1

/-- Every digit in base 2 is a bit. -/
theorem digits_two_bit (l : Nat) (x : Int) : ∀ b ∈ digits 2 l x, b = 0 ∨ b = 1 := by
  induction l generalizing x with
  | zero => simp [digits]
  | succ l ih =>
    intro b hb
    simp only [digits, List.mem_cons] at hb
    rcases hb with hb | hb
    · subst hb
      unfold bn.Mod
      omega
    · exact ih _ b hb

/-- The bits of a natural number against the powers of 2 (from `c` on) sum to
`c` times the number modulo `2^l`, as residues. -/
theorem cast_digits_powers (q : Int) (l : Nat) (v : Nat) (acc c : Int) :
    ((scalarProductLoop q acc (digits 2 l (v : Int)) (powerOfLoop q 2 l c) : Int) : ZMod q.natAbs)
      = (acc : ZMod q.natAbs) + (c : ZMod q.natAbs) * ((v % 2 ^ l : Nat) : ZMod q.natAbs) := by
  induction l generalizing v acc c with
  | zero => simp [digits, powerOfLoop, scalarProductLoop, Nat.mod_one]
  | succ l ih =>
    have h1 : ((v : Int) / 2) = ((v / 2 : Nat) : Int) := by norm_cast
    have h2 : ((bn.Mod (v : Int) 2 : Int) : ZMod q.natAbs) = ((v % 2 : Nat) : ZMod q.natAbs) := by
      unfold bn.Mod
      norm_cast
    simp only [digits, powerOfLoop, scalarProductLoop]
    rw [h1, ih, cast_Mod, cast_Mod, pow_succ', Nat.mod_mul]
    simp only [bn.Add, bn.Multiply]
    push_cast at h2 ⊢
    rw [h2]
    ring

/-! ## The polynomial identity, index by index -/

/-- The product of the two inner-product vectors, index by index, is a
quadratic polynomial in `x`. -/
theorem sum_poly {R : Type} [CommRing R] (rows : List Row) (z x : R) (φ : Int → R) :
    (rows.map (fun r : Row =>
        (φ r.a - z + φ r.s * x) * (φ r.Y * (φ r.a - 1 + z + φ r.r * x) + z * z * φ r.T))).sum
    = (rows.map (fun r : Row => (φ r.a - z) * (φ r.Y * (φ r.a - 1 + z) + z * z * φ r.T))).sum
      + (rows.map (fun r : Row => (φ r.a - z) * (φ r.Y * φ r.r) +
          φ r.s * (φ r.Y * (φ r.a - 1 + z) + z * z * φ r.T))).sum * x
      + (rows.map (fun r : Row => φ r.s * (φ r.Y * φ r.r))).sum * x ^ 2 := by
  induction rows with
  | nil => simp
  | cons r rows ih =>
    simp only [List.map_cons, List.sum_cons]
    rw [ih]
    ring

/-- The constant coefficient of that polynomial when the entries of `aL` are
bits: z^2.<aL, 2^n> + (z - z^2).<1, y^n> - z^3.<1, 2^n>. -/
theorem sum_t0 {R : Type} [CommRing R] (rows : List Row) (z : R) (φ : Int → R)
    (hbit : ∀ r ∈ rows, φ r.a * (φ r.a - 1) = 0) :
    (rows.map (fun r : Row => (φ r.a - z) * (φ r.Y * (φ r.a - 1 + z) + z * z * φ r.T))).sum
    = z * z * (rows.map (fun r : Row => φ r.a * φ r.T)).sum
      + (z - z * z) * (rows.map (fun r : Row => φ r.Y)).sum
      - z * z * z * (rows.map (fun r : Row => φ r.T)).sum := by
  induction rows with
  | nil => simp
  | cons r rows ih =>
    simp only [List.map_cons, List.sum_cons]
    rw [ih (fun r hr => hbit r (List.mem_cons_of_mem _ hr))]
    have h := hbit r (List.mem_cons_self _ _)
    linear_combination (φ r.Y) * h

/-- The residue of `delta(y, z)` in terms of the two power vectors. -/
theorem cast_delta (q : Int) (rows : List Row) (y z : Int) (N : Nat) (hN : N = rows.length)
    (hvy : powerOf q y N = rows.map Row.Y) (hp2 : powerOf q 2 N = rows.map Row.T) :
    ((delta q y z N : Int) : ZMod q.natAbs) =
      ((z : ZMod q.natAbs) - z * z) * (rows.map (fun r : Row => (r.Y : ZMod q.natAbs))).sum
      - z * z * z * (rows.map (fun r : Row => (r.T : ZMod q.natAbs))).sum := by
  subst hN
  have h1 : (VectorCopy 1 rows.length).1 = rows.map (fun _ => (1 : Int)) := by simp [VectorCopy]
  simp only [delta]
  rw [hvy, hp2, h1]
  simp only [cast_Mod, Int.cast_add, cast_scalarProductLoop, bn.Add, bn.Multiply,
      Int.cast_zero, zero_add, Int.cast_mul, Int.cast_sub, Int.cast_one, one_mul]

/-- Five vectors of length `N` are the columns of a list of `N` rows. -/
theorem exists_rows (N : Nat) (l1 l2 l3 l4 l5 : List Int) (h1 : l1.length = N) (h2 : l2.length = N)
    (h3 : l3.length = N) (h4 : l4.length = N) (h5 : l5.length = N) :
    ∃ rows : List Row, N = rows.length ∧ l1 = rows.map Row.a ∧ l2 = rows.map Row.s ∧
      l3 = rows.map Row.r ∧ l4 = rows.map Row.Y ∧ l5 = rows.map Row.T := by
  induction N generalizing l1 l2 l3 l4 l5 with
  | zero =>
    refine ⟨[], rfl, ?_, ?_, ?_, ?_, ?_⟩ <;> simp_all [List.length_eq_zero]
  | succ N ih =>
    match l1, l2, l3, l4, l5, h1, h2, h3, h4, h5 with
    | a :: l1, s :: l2, r :: l3, Y :: l4, T :: l5, h1, h2, h3, h4, h5 =>
      simp only [List.length_cons, Nat.add_right_cancel_iff] at h1 h2 h3 h4 h5
      obtain ⟨rows, hN, e1, e2, e3, e4, e5⟩ := ih l1 l2 l3 l4 l5 h1 h2 h3 h4 h5
      refine ⟨⟨a, s, r, Y, T⟩ :: rows, by simp [hN], ?_, ?_, ?_, ?_, ?_⟩ <;> simp [*]

/-! ## Sums of scalars -/

/-- Equal residues in `ZMod` give divisibility of the difference. -/
theorem modEq_of_cast (q a b : Int) (h : (a : ZMod q.natAbs) = (b : ZMod q.natAbs)) :
    q ∣ a - b := by
  have h0 : ((a - b : Int) : ZMod q.natAbs) = 0 := by push_cast; rw [h]; ring
  rw [CharP.intCast_eq_zero_iff (ZMod q.natAbs) q.natAbs] at h0
  exact Int.natAbs_dvd.mp h0

/-- Equal residues in `ZMod` give equal remainders. -/
theorem emod_eq_of_cast (q a b : Int) (h : (a : ZMod q.natAbs) = (b : ZMod q.natAbs)) :
    a % q = b % q :=
  Int.emod_eq_emod_iff_emod_sub_eq_zero.mpr (Int.emod_eq_zero_of_dvd (modEq_of_cast q a b h))

/-- The accumulation loop of `Aggregate` and of the test is the sum of the list. -/
theorem foldl_Add (a : Int) (l : List Int) : l.foldl bn.Add a = a + l.sum := by
  induction l generalizing a with
  | nil => simp
  | cons p l ih => simp only [List.foldl_cons, ih, bn.Add, List.sum_cons]; ring

/-- The sum of the partial scalars of lines 111-115 at shared challenges is,
modulo the field order, the single-prover scalar of the summed secrets. -/
theorem cast_sum_taux (q x z : Int) (contexts : List (MPCContext P IPP IPF)) (blinds : List Int)
    (hlen : contexts.length = blinds.length) :
    (((List.zipWith (fun (c : MPCContext P IPP IPF) g => PartialProve.taux q c.tau1 c.tau2 g x z)
        contexts blinds).sum : Int) : ZMod q.natAbs)
      = ((contexts.map (fun c => c.tau2)).sum : Int) * (x : ZMod q.natAbs) ^ 2
        + ((contexts.map (fun c => c.tau1)).sum : Int) * x + z * z * (blinds.sum : Int) := by
  induction contexts generalizing blinds with
  | nil =>
    match blinds, hlen with
    | [], _ => simp
  | cons c contexts ih =>
    match blinds, hlen with
    | g :: blinds, hlen =>
      simp only [List.length_cons, Nat.add_right_cancel_iff] at hlen
      rw [List.zipWith_cons_cons, List.sum_cons, Int.cast_add, ih blinds hlen]
      simp only [List.map_cons, List.sum_cons, PartialProve.taux, cast_Mod, bn.Add, bn.Multiply]
      push_cast
      ring

/-! ## Lines 46-109 against the specification

Vectors of length `N` are given by their entries at the indices below `N`. -/

/-- A vector of length `N` is given by its entries at the indices below `N`. -/
theorem eq_map_range (l : List Int) (N : Nat) (h : l.length = N) :
    l = (List.range N).map (fun i => l.getD i 0) := by
  subst h
  apply List.ext_getElem
  · simp
  · intro i h1 h2
    simp [List.getD_eq_getElem?_getD, List.getElem?_eq_getElem h1]

/-- The entries of the power vector of the source are the powers, as residues. -/
theorem cast_powerOfLoop_getD (q y : Int) (n : Nat) (c : Int) (i : Nat) (hi : i < n) :
    (((powerOfLoop q y n c).getD i 0 : Int) : ZMod q.natAbs)
      = (c : ZMod q.natAbs) * (y : ZMod q.natAbs) ^ i := by
  induction n generalizing c i with
  | zero => omega
  | succ n ih =>
    cases i with
    | zero => simp [powerOfLoop]
    | succ i =>
      simp only [powerOfLoop, List.getD_cons_succ]
      rw [ih _ i (by omega), cast_Mod]
      simp only [bn.Multiply]
      push_cast
      ring

/-- The entries of `powerOf(y, n)` are the powers of `y`, as residues. -/
theorem cast_powerOf_getD (q y : Int) (n i : Nat) (hi : i < n) :
    (((powerOf q y n).getD i 0 : Int) : ZMod q.natAbs) = (y : ZMod q.natAbs) ^ i := by
  rw [powerOf, cast_powerOfLoop_getD q y n 1 i hi]
  simp

/-- Lines 46-79 on vectors given index by index, the bit vectors arbitrary. -/
theorem coefficients_cols {α : Type} (q : Int) (rows : List α) (a b s r Y T : α → Int)
    (y z : Int) (N : Nat) (hN : N = rows.length)
    (hvy : powerOf q y N = rows.map Y) (hp2 : powerOf q 2 N = rows.map T) :
    ∃ X1 X2, PartialProve.coefficients q (rows.map a) (rows.map b) (rows.map s) (rows.map r)
        y z N = some (X1 % q, X2 % q) ∧
      (X1 : ZMod q.natAbs) = (rows.map (fun i =>
        ((a i : ZMod q.natAbs) - z) * (Y i * r i) +
          s i * (Y i * (b i + z) + z * z * T i))).sum ∧
      (X2 : ZMod q.natAbs) = (rows.map (fun i =>
        (s i : ZMod q.natAbs) * (Y i * r i))).sum := by
  subst hN
  simp only [PartialProve.coefficients]
  rw [hvy, hp2]
  simp only [VectorCopy_map, VectorConvertToBig_map, VectorSub_map, VectorAdd_map,
    VectorMul_map, VectorScalarMul_map, ScalarProduct_map]
  refine ⟨_, _, rfl, ?_, ?_⟩
  · simp only [cast_Mod, Int.cast_add, cast_scalarProductLoop, bn.Add, bn.Multiply,
      Int.cast_zero, zero_add, Int.cast_mul, Int.cast_sub, Int.cast_one]
    rw [← List.sum_map_add]
    congr 1
    apply List.map_congr_left
    intro r _
    ring
  · simp only [cast_Mod, Int.cast_add, cast_scalarProductLoop, bn.Add, bn.Multiply,
      Int.cast_zero, zero_add, Int.cast_mul, Int.cast_sub, Int.cast_one]

/-- Lines 96-109 on vectors given index by index, the bit vectors arbitrary. -/
theorem vectors_cols {α : Type} (q : Int) (rows : List α) (a b s r Y T : α → Int)
    (y z x : Int) (N : Nat) (hN : N = rows.length)
    (hvy : powerOf q y N = rows.map Y) (hp2 : powerOf q 2 N = rows.map T) :
    ∃ t, (PartialProve.vectors q (rows.map a) (rows.map b) (rows.map s) (rows.map r)
        y z x N).2.2 = some t ∧
      (PartialProve.vectors q (rows.map a) (rows.map b) (rows.map s) (rows.map r)
        y z x N).1.length = N ∧
      (PartialProve.vectors q (rows.map a) (rows.map b) (rows.map s) (rows.map r)
        y z x N).2.1.length = N ∧
      (t : ZMod q.natAbs) = (rows.map (fun i =>
        ((a i : ZMod q.natAbs) - z + s i * x) *
          (Y i * (b i + z + r i * x) + z * z * T i))).sum := by
  subst hN
  simp only [PartialProve.vectors]
  rw [hvy, hp2]
  simp only [VectorCopy_map, VectorConvertToBig_map, VectorSub_map, VectorAdd_map,
    VectorMul_map, VectorScalarMul_map, ScalarProduct_map]
  refine ⟨_, rfl, ?_, ?_, ?_⟩
  · simp
  · simp
  · simp only [cast_Mod, Int.cast_add, cast_scalarProductLoop, bn.Add, bn.Multiply,
      Int.cast_zero, zero_add, Int.cast_mul, Int.cast_sub, Int.cast_one]
    congr 1
    apply List.map_congr_left
    intro r _
    ring

/-- The coefficients of the specification on vectors given index by index. -/
theorem spec_cols (N : Nat) (a b s r : Nat → Int) (y z : Int) :
    specT0 ((List.range N).map a) ((List.range N).map b) y z N
      = ((List.range N).map (fun i => (a i - z) * (y ^ i * (b i + z) + z ^ 2 * 2 ^ i))).sum ∧
    specT1 ((List.range N).map a) ((List.range N).map b) ((List.range N).map s)
        ((List.range N).map r) y z N
      = ((List.range N).map (fun i => (a i - z) * (y ^ i * r i))).sum
        + ((List.range N).map (fun i => s i * (y ^ i * (b i + z) + z ^ 2 * 2 ^ i))).sum ∧
    specT2 ((List.range N).map s) ((List.range N).map r) y N
      = ((List.range N).map (fun i => s i * (y ^ i * r i))).sum := by
  simp only [specT0, specT1, specT2, specRight, specInner, specHadamard, specVectorAdd,
    specPowers, List.map_map, zipWith_map_same, Function.comp_def]
  exact ⟨trivial, trivial, trivial⟩

/-- Lines 46-79 against the specification, on vectors given index by index. -/
theorem coefficients_spec_cols (q : Int) (N : Nat) (a b s r : Nat → Int) (y z : Int) :
    PartialProve.coefficients q ((List.range N).map a) ((List.range N).map b)
        ((List.range N).map s) ((List.range N).map r) y z N
      = some (specT1 ((List.range N).map a) ((List.range N).map b) ((List.range N).map s)
            ((List.range N).map r) y z N % q,
          specT2 ((List.range N).map s) ((List.range N).map r) y N % q) := by
  obtain ⟨X1, X2, hc, h1, h2⟩ := coefficients_cols q (List.range N) a b s r
    (fun i => (powerOf q y N).getD i 0) (fun i => (powerOf q 2 N).getD i 0) y z N (by simp)
    (eq_map_range _ N (powerOf_length q y N)) (eq_map_range _ N (powerOf_length q 2 N))
  obtain ⟨-, e1, e2⟩ := spec_cols N a b s r y z
  rw [hc, e1, e2]
  congr 2
  · apply emod_eq_of_cast
    rw [h1]
    push_cast
    rw [List.map_map, List.map_map, ← List.sum_map_add]
    congr 1
    apply List.map_congr_left
    intro i hi
    have hi' : i < N := List.mem_range.mp hi
    simp only [Function.comp_def, cast_powerOf_getD q y N i hi', cast_powerOf_getD q 2 N i hi']
    push_cast
    ring
  · apply emod_eq_of_cast
    rw [h2]
    push_cast
    rw [List.map_map]
    apply congrArg
    apply List.map_congr_left
    intro i hi
    have hi' : i < N := List.mem_range.mp hi
    simp only [Function.comp_def, cast_powerOf_getD q y N i hi']
    push_cast
    ring

/-- Lines 46-79 on vectors of length `N`: no panic, and the coefficients are
the residues of the coefficients of the specification. -/
theorem coefficients_of_lengths (ORDER : Int) (aL aR sL sR : List Int) (y z : Int) (N : Nat)
    (haL : aL.length = N) (haR : aR.length = N) (hsL : sL.length = N) (hsR : sR.length = N) :
    PartialProve.coefficients ORDER aL aR sL sR y z N
      = some (specT1 aL aR sL sR y z N % ORDER, specT2 sL sR y N % ORDER) := by
  have h := coefficients_spec_cols ORDER N (fun i => aL.getD i 0) (fun i => aR.getD i 0)
    (fun i => sL.getD i 0) (fun i => sR.getD i 0) y z
  rwa [← eq_map_range aL N haL, ← eq_map_range aR N haR, ← eq_map_range sL N hsL,
    ← eq_map_range sR N hsR] at h

/-- C13. The polynomial coefficients `PartialProve` computes on length-N
vectors are t1 = (< aL - z.1, y^n o sR > + < sL, y^n o (aR + z.1) + z^2.2^n >)
mod ORDER and t2 = < sL, y^n o sR > mod ORDER, with y^n = [1, y, .., y^(N-1)],
2^n = [1, 2, .., 2^(N-1)] and `o` the component-wise product; in particular
lines 46-79 do not panic. -/
theorem coefficients_spec (ORDER : Int) (aL aR sL sR : List Int) (y z : Int) (N : Nat)
    (haL : aL.length = N) (haR : aR.length = N) (hsL : sL.length = N) (hsR : sR.length = N) :
    PartialProve.coefficients ORDER aL aR sL sR y z N
      = some (specT1 aL aR sL sR y z N % ORDER, specT2 sL sR y N % ORDER) :=
  coefficients_of_lengths ORDER aL aR sL sR y z N haL haR hsL hsR

/-- Witness of C13: the vectors of the first toy participant. -/
theorem coefficients_spec_witness :
    PartialProve.coefficients 11 [1, 1] [0, 0] [1, 2] [3, 4] 29 4 2
      = some (specT1 [1, 1] [0, 0] [1, 2] [3, 4] 29 4 2 % 11, specT2 [1, 2] [3, 4] 29 2 % 11) ∧
    specT1 [1, 1] [0, 0] [1, 2] [3, 4] 29 4 2 % 11 = 3 ∧ specT2 [1, 2] [3, 4] 29 2 % 11 = 4 :=
  ⟨coefficients_spec 11 [1, 1] [0, 0] [1, 2] [3, 4] 29 4 2 rfl rfl rfl rfl, by decide, by decide⟩

/-- The product of the two inner-product vectors, index by index and for
arbitrary bit vectors, is a quadratic polynomial in `x`. -/
theorem sum_poly_cols {α R : Type} [CommRing R] (rows : List α) (a b s r Y T : α → R) (z x : R) :
    (rows.map (fun i => (a i - z + s i * x) * (Y i * (b i + z + r i * x) + z * z * T i))).sum
    = (rows.map (fun i => (a i - z) * (Y i * (b i + z) + z * z * T i))).sum
      + (rows.map (fun i => (a i - z) * (Y i * r i)
          + s i * (Y i * (b i + z) + z * z * T i))).sum * x
      + (rows.map (fun i => s i * (Y i * r i))).sum * x ^ 2 := by
  induction rows with
  | nil => simp
  | cons i rows ih =>
    simp only [List.map_cons, List.sum_cons]
    rw [ih]
    ring

/-- Lines 46-109 against the polynomial, on vectors given index by index. -/
theorem tprime_polynomial_cols (q : Int) (N : Nat) (a b s r : Nat → Int) (y z x : Int) :
    ∃ t1 t2 tprime,
      PartialProve.coefficients q ((List.range N).map a) ((List.range N).map b)
        ((List.range N).map s) ((List.range N).map r) y z N = some (t1, t2) ∧
      (PartialProve.vectors q ((List.range N).map a) ((List.range N).map b)
        ((List.range N).map s) ((List.range N).map r) y z x N).2.2 = some tprime ∧
      tprime % q = (specT0 ((List.range N).map a) ((List.range N).map b) y z N
        + t1 * x + t2 * x ^ 2) % q := by
  obtain ⟨X1, X2, hc, h1, h2⟩ := coefficients_cols q (List.range N) a b s r
    (fun i => (powerOf q y N).getD i 0) (fun i => (powerOf q 2 N).getD i 0) y z N (by simp)
    (eq_map_range _ N (powerOf_length q y N)) (eq_map_range _ N (powerOf_length q 2 N))
  obtain ⟨t, ht, -, -, hcast⟩ := vectors_cols q (List.range N) a b s r
    (fun i => (powerOf q y N).getD i 0) (fun i => (powerOf q 2 N).getD i 0) y z x N (by simp)
    (eq_map_range _ N (powerOf_length q y N)) (eq_map_range _ N (powerOf_length q 2 N))
  obtain ⟨e0, -, -⟩ := spec_cols N a b s r y z
  refine ⟨_, _, t, hc, ht, ?_⟩
  apply emod_eq_of_cast
  have h0 : ((specT0 ((List.range N).map a) ((List.range N).map b) y z N : Int) :
      ZMod q.natAbs) = ((List.range N).map (fun i => ((a i : ZMod q.natAbs) - z)
        * ((((powerOf q y N).getD i 0 : Int) : ZMod q.natAbs) * (b i + z)
          + z * z * (((powerOf q 2 N).getD i 0 : Int) : ZMod q.natAbs)))).sum := by
    rw [e0]
    push_cast
    rw [List.map_map]
    apply congrArg
    apply List.map_congr_left
    intro i hi
    have hi' : i < N := List.mem_range.mp hi
    simp only [Function.comp_def, cast_powerOf_getD q y N i hi', cast_powerOf_getD q 2 N i hi']
    push_cast
    ring
  have c1 : ((X1 % q : Int) : ZMod q.natAbs) = (X1 : ZMod q.natAbs) := cast_Mod q X1
  have c2 : ((X2 % q : Int) : ZMod q.natAbs) = (X2 : ZMod q.natAbs) := cast_Mod q X2
  rw [hcast, sum_poly_cols]
  push_cast
  rw [h0, c1, c2, h1, h2]

/-- Lines 46-109 against the polynomial, on vectors of length `N`. -/
theorem tprime_polynomial_of_lengths (ORDER : Int) (aL aR sL sR : List Int) (y z x : Int)
    (N : Nat) (haL : aL.length = N) (haR : aR.length = N) (hsL : sL.length = N)
    (hsR : sR.length = N) :
    ∃ t1 t2 tprime,
      PartialProve.coefficients ORDER aL aR sL sR y z N = some (t1, t2) ∧
      (PartialProve.vectors ORDER aL aR sL sR y z x N).2.2 = some tprime ∧
      tprime % ORDER = (specT0 aL aR y z N + t1 * x + t2 * x ^ 2) % ORDER := by
  have h := tprime_polynomial_cols ORDER N (fun i => aL.getD i 0) (fun i => aR.getD i 0)
    (fun i => sL.getD i 0) (fun i => sR.getD i 0) y z x
  rwa [← eq_map_range aL N haL, ← eq_map_range aR N haR, ← eq_map_range sL N hsL,
    ← eq_map_range sR N hsR] at h

/-- C11. Key polynomial identity: for every length-N `aL`, `aR`, `sL`, `sR`
and all scalars `y`, `z`, `x`, the value `tprime = < bl, br >` that lines 96-109
compute from bl = (aL - z.1) + sL.x and br = y^n o (aR + z.1 + sR.x) + z^2.2^n
is congruent modulo ORDER to t0 + t1.x + t2.x^2, where `t1`, `t2` are the
coefficients lines 46-79 compute and
t0 = < aL - z.1, y^n o (aR + z.1) + z^2.2^n >. -/
theorem tprime_polynomial (ORDER : Int) (aL aR sL sR : List Int) (y z x : Int) (N : Nat)
    (haL : aL.length = N) (haR : aR.length = N) (hsL : sL.length = N) (hsR : sR.length = N) :
    ∃ t1 t2 tprime,
      PartialProve.coefficients ORDER aL aR sL sR y z N = some (t1, t2) ∧
      (PartialProve.vectors ORDER aL aR sL sR y z x N).2.2 = some tprime ∧
      (PartialProve.vectors ORDER aL aR sL sR y z x N).2.2 =
        (ScalarProduct ORDER (PartialProve.vectors ORDER aL aR sL sR y z x N).1
          (PartialProve.vectors ORDER aL aR sL sR y z x N).2.1).1 ∧
      tprime % ORDER = (specT0 aL aR y z N + t1 * x + t2 * x ^ 2) % ORDER := by
  obtain ⟨t1, t2, tprime, h1, h2, h3⟩ := tprime_polynomial_of_lengths ORDER aL aR sL sR y z x N
    haL haR hsL hsR
  exact ⟨t1, t2, tprime, h1, h2, rfl, h3⟩

/-- Witness of C11: the vectors of the first toy participant, where t0 = -504,
t1 = 3, t2 = 4, x = 20 and tprime = 1. -/
theorem tprime_polynomial_witness :
    ∃ t1 t2 tprime,
      PartialProve.coefficients 11 [1, 1] [0, 0] [1, 2] [3, 4] 29 4 2 = some (t1, t2) ∧
      (PartialProve.vectors 11 [1, 1] [0, 0] [1, 2] [3, 4] 29 4 20 2).2.2 = some tprime ∧
      (PartialProve.vectors 11 [1, 1] [0, 0] [1, 2] [3, 4] 29 4 20 2).2.2 =
        (ScalarProduct 11 (PartialProve.vectors 11 [1, 1] [0, 0] [1, 2] [3, 4] 29 4 20 2).1
          (PartialProve.vectors 11 [1, 1] [0, 0] [1, 2] [3, 4] 29 4 20 2).2.1).1 ∧
      tprime % 11 = (specT0 [1, 1] [0, 0] 29 4 2 + t1 * 20 + t2 * 20 ^ 2) % 11 :=
  tprime_polynomial 11 [1, 1] [0, 0] [1, 2] [3, 4] 29 4 20 2 rfl rfl rfl rfl

/-! ## Ranges and lengths -/

/-- Under a positive field order `bn.Mod` returns a canonical residue. -/
theorem Mod_range (q a : Int) (hq : 0 < q) : 0 ≤ bn.Mod a q ∧ bn.Mod a q < q :=
  ⟨Int.emod_nonneg a (ne_of_gt hq), Int.emod_lt_of_pos a hq⟩

/-- The accumulation loop of `ScalarProduct` keeps a canonical residue. -/
theorem scalarProductLoop_range (q : Int) (hq : 0 < q) (acc : Int) (a b : List Int)
    (hacc : 0 ≤ acc ∧ acc < q) :
    0 ≤ scalarProductLoop q acc a b ∧ scalarProductLoop q acc a b < q := by
  induction a generalizing acc b with
  | nil => simpa [scalarProductLoop] using hacc
  | cons x a ih =>
    cases b with
    | nil => simpa [scalarProductLoop] using hacc
    | cons y b =>
      simp only [scalarProductLoop]
      exact ih _ b (Mod_range q _ hq)

/-- A scalar product that is not `nil` is a canonical residue. -/
theorem ScalarProduct_range (q : Int) (hq : 0 < q) (a b : List Int) (t : Int)
    (h : (ScalarProduct q a b).1 = some t) : 0 ≤ t ∧ t < q := by
  unfold ScalarProduct at h
  split at h
  · simp at h
  · simp only [Option.some.injEq] at h
    subst h
    exact scalarProductLoop_range q hq 0 a b ⟨le_refl 0, hq⟩

/-- The length of the result of `VectorAdd`, the `nil` of a failure included. -/
theorem VectorAdd_length (q : Int) (a b : List Int) :
    (VectorAdd q a b).1.length = if a.length = b.length then a.length else 0 := by
  unfold VectorAdd
  split_ifs <;> simp_all

/-- The length of the result of `VectorSub`, the `nil` of a failure included. -/
theorem VectorSub_length (q : Int) (a b : List Int) :
    (VectorSub q a b).1.length = if a.length = b.length then a.length else 0 := by
  unfold VectorSub
  split_ifs <;> simp_all

/-- The length of the result of `VectorMul`, the `nil` of a failure included. -/
theorem VectorMul_length (q : Int) (a b : List Int) :
    (VectorMul q a b).1.length = if a.length = b.length then a.length else 0 := by
  unfold VectorMul
  split_ifs <;> simp_all

/-- The result of `VectorScalarMul` has the length of its argument. -/
theorem VectorScalarMul_length (q : Int) (a : List Int) (b : Int) :
    (VectorScalarMul q a b).1.length = a.length := by
  simp [VectorScalarMul]

/-- The result of `VectorCopy(a, n)` has length `n`. -/
theorem VectorCopy_length (a : Int) (n : Nat) : (VectorCopy a n).1.length = n := by
  simp [VectorCopy]

/-- The length of the result of `VectorConvertToBig`, the `nil` of a failure
included. -/
theorem VectorConvertToBig_length (a : List Int) (n : Nat) :
    (VectorConvertToBig a n).1.length = if a.length < n then 0 else n := by
  unfold VectorConvertToBig
  split_ifs <;> simp_all

/-- `ScalarProduct` returns `nil` exactly on vectors of different lengths. -/
theorem ScalarProduct_eq_none (q : Int) (a b : List Int) :
    (ScalarProduct q a b).1 = none ↔ a.length ≠ b.length := by
  unfold ScalarProduct
  split_ifs <;> simp_all

/-- A scalar product that is not `nil` was taken on vectors of equal length. -/
theorem ScalarProduct_length (q : Int) (a b : List Int) (t : Int)
    (h : (ScalarProduct q a b).1 = some t) : a.length = b.length := by
  by_contra hn
  rw [(ScalarProduct_eq_none q a b).mpr hn] at h
  exact absurd h (by simp)

/-- When lines 46-79 do not panic on bit vectors of length `N`, the scalar
product of line 109 is not `nil`. -/
theorem vectors_tprime_of_coefficients (q : Int) (aL aR sL sR : List Int) (y z x : Int)
    (N : Nat) (haL : aL.length = N) (haR : aR.length = N) (c : Int × Int)
    (h : PartialProve.coefficients q aL aR sL sR y z N = some c) :
    (PartialProve.vectors q aL aR sL sR y z x N).2.2 ≠ none := by
  intro hv
  simp only [PartialProve.vectors, ScalarProduct_eq_none, VectorAdd_length, VectorSub_length,
    VectorMul_length, VectorScalarMul_length, VectorCopy_length, VectorConvertToBig_length,
    powerOf_length, haL, haR] at hv
  simp only [PartialProve.coefficients] at h
  split at h
  · rename_i s1 s2 s3 h1 h2 h3
    have n1 := ScalarProduct_length q _ _ s1 h1
    have n2 := ScalarProduct_length q _ _ s2 h2
    have n3 := ScalarProduct_length q _ _ s3 h3
    simp only [VectorAdd_length, VectorSub_length,
      VectorMul_length, VectorScalarMul_length, VectorCopy_length, VectorConvertToBig_length,
      powerOf_length, haL, haR] at n1 n2 n3
    split_ifs at hv n1 n2 n3 <;> omega
  · simp at h

/-! ## The discarded errors of the vector helpers -/

/-- The helper calls of lines 46-79 succeed on vectors given index by index. -/
theorem coefficientErrors_cols {α : Type} (q : Int) (rows : List α) (a b s r Y T : α → Int)
    (y z : Int) (N : Nat) (hN : N = rows.length)
    (hvy : powerOf q y N = rows.map Y) (hp2 : powerOf q 2 N = rows.map T) :
    PartialProve.coefficientErrors q (rows.map a) (rows.map b) (rows.map s) (rows.map r) y z N
      = List.replicate 12 none := by
  subst hN
  simp only [PartialProve.coefficientErrors]
  rw [hvy, hp2]
  simp only [VectorCopy_map, VectorConvertToBig_map, VectorSub_map, VectorAdd_map,
    VectorMul_map, VectorScalarMul_map, ScalarProduct_map]
  rfl

/-- The helper calls of lines 96-109 succeed on vectors given index by index. -/
theorem vectorErrors_cols {α : Type} (q : Int) (rows : List α) (a b s r Y T : α → Int)
    (y z x : Int) (N : Nat) (hN : N = rows.length)
    (hvy : powerOf q y N = rows.map Y) (hp2 : powerOf q 2 N = rows.map T) :
    PartialProve.vectorErrors q (rows.map a) (rows.map b) (rows.map s) (rows.map r) y z x N
      = List.replicate 7 none := by
  subst hN
  simp only [PartialProve.vectorErrors]
  rw [hvy, hp2]
  simp only [VectorCopy_map, VectorConvertToBig_map, VectorSub_map, VectorAdd_map,
    VectorMul_map, VectorScalarMul_map, ScalarProduct_map]
  rfl

/-- The helper calls of lines 46-79 succeed on vectors of length `N`. -/
theorem coefficientErrors_none (q : Int) (aL aR sL sR : List Int) (y z : Int) (N : Nat)
    (haL : aL.length = N) (haR : aR.length = N) (hsL : sL.length = N) (hsR : sR.length = N) :
    PartialProve.coefficientErrors q aL aR sL sR y z N = List.replicate 12 none := by
  have h := coefficientErrors_cols q (List.range N) (fun i => aL.getD i 0)
    (fun i => aR.getD i 0) (fun i => sL.getD i 0) (fun i => sR.getD i 0)
    (fun i => (powerOf q y N).getD i 0) (fun i => (powerOf q 2 N).getD i 0) y z N (by simp)
    (eq_map_range _ N (powerOf_length q y N)) (eq_map_range _ N (powerOf_length q 2 N))
  rwa [← eq_map_range aL N haL, ← eq_map_range aR N haR, ← eq_map_range sL N hsL,
    ← eq_map_range sR N hsR] at h

/-- The helper calls of lines 96-109 succeed on vectors of length `N`. -/
theorem vectorErrors_none (q : Int) (aL aR sL sR : List Int) (y z x : Int) (N : Nat)
    (haL : aL.length = N) (haR : aR.length = N) (hsL : sL.length = N) (hsR : sR.length = N) :
    PartialProve.vectorErrors q aL aR sL sR y z x N = List.replicate 7 none := by
  have h := vectorErrors_cols q (List.range N) (fun i => aL.getD i 0)
    (fun i => aR.getD i 0) (fun i => sL.getD i 0) (fun i => sR.getD i 0)
    (fun i => (powerOf q y N).getD i 0) (fun i => (powerOf q 2 N).getD i 0) y z x N (by simp)
    (eq_map_range _ N (powerOf_length q y N)) (eq_map_range _ N (powerOf_length q 2 N))
  rwa [← eq_map_range aL N haL, ← eq_map_range aR N haR, ← eq_map_range sL N hsL,
    ← eq_map_range sR N hsR] at h

/-! ## The term delta of the polynomial check -/

/-- The term delta(y, z) the verifier computes is the residue of the integer
expression (z - z^2).< 1, y^n > - z^3.< 1, 2^n >. -/
theorem delta_spec (q y z : Int) (N : Nat) : delta q y z N = specDelta y z N % q := by
  have h1 : (VectorCopy 1 N).1 = (List.range N).map (fun _ => (1 : Int)) := by
    simp [VectorCopy]
  have h2 : List.replicate N (1 : Int) = (List.range N).map (fun _ => (1 : Int)) := by
    simp
  simp only [delta]
  rw [h1, eq_map_range _ N (powerOf_length q y N), eq_map_range _ N (powerOf_length q 2 N)]
  apply emod_eq_of_cast
  simp only [specDelta, specInner, specPowers, h2, zipWith_map_same]
  push_cast
  simp only [cast_Mod, cast_scalarProductLoop, bn.Multiply, Int.cast_zero, zero_add,
    Int.cast_mul, Int.cast_sub, Int.cast_one, one_mul, List.map_map, Function.comp_def]
  have e : ∀ w : Int, (List.range N).map (fun i => (((powerOf q w N).getD i 0 : Int) :
      ZMod q.natAbs)) = (List.range N).map (fun i => (w : ZMod q.natAbs) ^ i) := by
    intro w
    apply List.map_congr_left
    intro i hi
    exact cast_powerOf_getD q w N i (List.mem_range.mp hi)
  rw [e y, e 2]
  push_cast
  ring

/-! ## Round 3: `Aggregate` -/

/-- C3 (failing input). On the partial scalars `[ORDER - 1, 1]` the `Taux` of
the aggregated proof is `ORDER`, the plain sum, and not its residue 0:
`Aggregate` adds with `bn.Add` and never reduces with `bn.Mod`. -/
theorem Aggregate_taux_not_reduced (context : MPCContext P IPP IPF) (v : P) (ORDER : Int) :
    (Aggregate context v [ORDER - 1, 1]).2.1.Taux = some ORDER ∧ ¬ (ORDER < ORDER) := by
  simp [Aggregate, bn.Add]

/-- C8. `Aggregate` returns a nil error and a proof that holds the argument
`v` and the context's A, S, T1, T2, Mu, Tprime, InnerProductProof, Commit and
Params, for every list of partial scalars, the empty one included; the context
is left as it was. -/
theorem Aggregate_frame (context : MPCContext P IPP IPF) (v : P) (tauxs : List Int) :
    (Aggregate context v tauxs).2.2 = none ∧
    (Aggregate context v tauxs).2.1.V = some v ∧
    (Aggregate context v tauxs).2.1.A = context.A ∧
    (Aggregate context v tauxs).2.1.S = context.S ∧
    (Aggregate context v tauxs).2.1.T1 = context.T1 ∧
    (Aggregate context v tauxs).2.1.T2 = context.T2 ∧
    (Aggregate context v tauxs).2.1.Mu = context.Mu ∧
    (Aggregate context v tauxs).2.1.Tprime = context.Tprime ∧
    (Aggregate context v tauxs).2.1.InnerProductProof = context.InnerProductProof ∧
    (Aggregate context v tauxs).2.1.Commit = context.Commit ∧
    (Aggregate context v tauxs).2.1.Params = context.Params ∧
    (Aggregate context v tauxs).1 = context :=
  ⟨rfl, rfl, rfl, rfl, rfl, rfl, rfl, rfl, rfl, rfl, rfl, rfl⟩

end Scalars

section Properties

variable {P IPP IPF : Type} [AddCommGroup P]

/-! ## Shape of a `PartialProve` call -/

/-- The challenges kept in the intermediate values are the oracle's answers on
the commitments kept next to them. -/
theorem intermediates_challenges (env : Collaborators P IPP IPF) (secret : Int)
    (publicTau1s publicTau2s : List P) (alpha rho : Int) (sL sR : List Int)
    (params : BulletProofSetupParams P IPP) (st : Intermediates P)
    (h : PartialProve.intermediates env secret publicTau1s publicTau2s alpha rho sL sR params
      = some st) :
    st.y = (env.HashBP st.A st.S).1 ∧ st.z = (env.HashBP st.A st.S).2.1 ∧
    st.x = (env.HashBP st.T1 st.T2).1 := by
  simp only [PartialProve.intermediates] at h
  split at h
  · exact absurd h (by simp)
  · simp only [Option.some.injEq] at h
    subst h
    exact ⟨rfl, rfl, rfl⟩

/-- What a call that did not panic returns: the error of `setupInnerProduct`
with the context untouched, or the populated context with `taux`. -/
theorem PartialProve_of_intermediates (env : Collaborators P IPP IPF)
    (context : MPCContext P IPP IPF) (secret gamma : Int) (publicTau1s publicTau2s : List P)
    (alpha rho : Int) (sL sR : List Int) (params : BulletProofSetupParams P IPP)
    (st : Intermediates P)
    (h : PartialProve.intermediates env secret publicTau1s publicTau2s alpha rho sL sR params
      = some st) :
    PartialProve env context secret gamma publicTau1s publicTau2s alpha rho sL sR params =
      match env.setupInnerProduct params.H params.Gg
          (env.updateGenerators params.Hh st.y params.N) st.tprime params.N with
      | (_, some setupErr) => some (context, none, some setupErr)
      | (ipp, none) =>
        some ({ context with
                  A := some st.A, S := some st.S, T1 := some st.T1, T2 := some st.T2,
                  Mu := some (PartialProve.mu env.ORDER alpha rho st.x), Tprime := st.tprime,
                  InnerProductProof := some (env.proveInnerProduct st.bl st.br
                    (env.commitInnerProduct params.Gg
                      (env.updateGenerators params.Hh st.y params.N) st.bl st.br) ipp).1,
                  Commit := some (env.commitInnerProduct params.Gg
                      (env.updateGenerators params.Hh st.y params.N) st.bl st.br),
                  Params := some { params with InnerProductParams := ipp } },
              some (PartialProve.taux env.ORDER context.tau1 context.tau2 gamma st.x st.z),
              none) := by
  unfold PartialProve
  rw [h]

/-- A call that panics does so before the participant-specific part. -/
theorem PartialProve_of_intermediates_none (env : Collaborators P IPP IPF)
    (context : MPCContext P IPP IPF) (secret gamma : Int) (publicTau1s publicTau2s : List P)
    (alpha rho : Int) (sL sR : List Int) (params : BulletProofSetupParams P IPP)
    (h : PartialProve.intermediates env secret publicTau1s publicTau2s alpha rho sL sR params
      = none) :
    PartialProve env context secret gamma publicTau1s publicTau2s alpha rho sL sR params
      = none := by
  unfold PartialProve
  rw [h]

/-- A successful call, read off its result. -/
theorem PartialProve_success (env : Collaborators P IPP IPF)
    (context : MPCContext P IPP IPF) (secret gamma : Int) (publicTau1s publicTau2s : List P)
    (alpha rho : Int) (sL sR : List Int) (params : BulletProofSetupParams P IPP)
    (context1 : MPCContext P IPP IPF) (taux : Int)
    (h : PartialProve env context secret gamma publicTau1s publicTau2s alpha rho sL sR params
      = some (context1, some taux, none)) :
    ∃ st ipp,
      PartialProve.intermediates env secret publicTau1s publicTau2s alpha rho sL sR params
        = some st ∧
      env.setupInnerProduct params.H params.Gg
          (env.updateGenerators params.Hh st.y params.N) st.tprime params.N = (ipp, none) ∧
      taux = PartialProve.taux env.ORDER context.tau1 context.tau2 gamma st.x st.z ∧
      context1 = { context with
                  A := some st.A, S := some st.S, T1 := some st.T1, T2 := some st.T2,
                  Mu := some (PartialProve.mu env.ORDER alpha rho st.x), Tprime := st.tprime,
                  InnerProductProof := some (env.proveInnerProduct st.bl st.br
                    (env.commitInnerProduct params.Gg
                      (env.updateGenerators params.Hh st.y params.N) st.bl st.br) ipp).1,
                  Commit := some (env.commitInnerProduct params.Gg
                      (env.updateGenerators params.Hh st.y params.N) st.bl st.br),
                  Params := some { params with InnerProductParams := ipp } } := by
  cases hst : PartialProve.intermediates env secret publicTau1s publicTau2s alpha rho sL sR params with
  | none =>
    rw [PartialProve_of_intermediates_none env context secret gamma publicTau1s publicTau2s
      alpha rho sL sR params hst] at h
    exact absurd h (by simp)
  | some st =>
    rw [PartialProve_of_intermediates env context secret gamma publicTau1s publicTau2s
      alpha rho sL sR params st hst] at h
    rcases hsu : env.setupInnerProduct params.H params.Gg
        (env.updateGenerators params.Hh st.y params.N) st.tprime params.N with ⟨ipp, _ | e⟩
    · rw [hsu] at h
      simp only [Option.some.injEq, Prod.mk.injEq] at h
      exact ⟨st, ipp, rfl, hsu, h.2.1.symm, h.1.symm⟩
    · rw [hsu] at h
      simp at h

/-! ## The values of an honest `PartialProve` call -/

/-- The bits of `v < 2^N` against the powers of 2 sum to `v`. -/
theorem sum_bits_powers (q : Int) (rows : List Row) (N : Nat) (v : Nat)
    (haL : digits 2 N (v : Int) = rows.map Row.a) (hp2 : powerOf q 2 N = rows.map Row.T)
    (hv : v < 2 ^ N) :
    (rows.map (fun r : Row => (r.a : ZMod q.natAbs) * (r.T : ZMod q.natAbs))).sum
      = ((v : Int) : ZMod q.natAbs) := by
  have h := cast_digits_powers q N v 0 1
  rw [← powerOf, haL, hp2, cast_scalarProductLoop, Nat.mod_eq_of_lt hv] at h
  simpa using h

/-- The bits of a decomposition are idempotent modulo the field order. -/
theorem bits_rows (q : Int) (rows : List Row) (N : Nat) (x : Int)
    (haL : digits 2 N x = rows.map Row.a) :
    ∀ r ∈ rows, (r.a : ZMod q.natAbs) * ((r.a : ZMod q.natAbs) - 1) = 0 := by
  intro r hr
  have hmem : r.a ∈ digits 2 N x := by
    rw [haL]
    exact List.mem_map_of_mem _ hr
  rcases digits_two_bit N x r.a hmem with h | h <;> rw [h] <;> simp

/-- With `sL`, `sR` of length `N` the vector part of `PartialProve` does not
panic, `bl` and `br` have length `N`, `tprime` is set, and for a secret of
`[0, 2^N)` it satisfies tprime = z^2.v + delta(y,z) + t1.x + t2.x^2 modulo the
field order. -/
theorem intermediates_valid (env : Collaborators P IPP IPF) (secret : Int)
    (publicTau1s publicTau2s : List P) (alpha rho : Int) (sL sR : List Int)
    (params : BulletProofSetupParams P IPP)
    (hsL : sL.length = params.N) (hsR : sR.length = params.N) :
    ∃ st t, PartialProve.intermediates env secret publicTau1s publicTau2s alpha rho sL sR params
        = some st ∧
      st.T1 = publicTau1s.foldl Multiply (ScalarBaseMult env st.t1) ∧
      st.T2 = publicTau2s.foldl Multiply (ScalarBaseMult env st.t2) ∧
      st.bl.length = params.N ∧ st.br.length = params.N ∧
      st.tprime = (ScalarProduct env.ORDER st.bl st.br).1 ∧ st.tprime = some t ∧
      (∀ v : Nat, secret = (v : Int) → v < 2 ^ params.N →
        (t : ZMod env.ORDER.natAbs) = (st.z : ZMod env.ORDER.natAbs) * st.z * secret
          + (delta env.ORDER st.y st.z params.N : Int) + st.t1 * st.x + st.t2 * st.x ^ 2) := by
  obtain ⟨rows, hN, haL, hsL1, hsR1, hvy, hp2⟩ := exists_rows params.N
    (Decompose secret 2 params.N).1 sL sR
    (powerOf env.ORDER (env.HashBP
      (env.commitVector (Decompose secret 2 params.N).1 (computeAR (Decompose secret 2 params.N).1).1
        alpha params.H params.Gg params.Hh params.N)
      (env.commitVectorBig sL sR rho params.H params.Gg params.Hh params.N)).1 params.N)
    (powerOf env.ORDER 2 params.N)
    (digits_length _ _ _) hsL hsR (powerOf_length _ _ _) (powerOf_length _ _ _)
  have haR : (computeAR (Decompose secret 2 params.N).1).1 = rows.map (fun r => r.a - 1) := by
    rw [haL, computeAR_map]
  obtain ⟨t1, t2, hc, ht1, ht2⟩ := coefficients_rows env.ORDER rows _
    (env.HashBP
      (env.commitVector (Decompose secret 2 params.N).1 (computeAR (Decompose secret 2 params.N).1).1
        alpha params.H params.Gg params.Hh params.N)
      (env.commitVectorBig sL sR rho params.H params.Gg params.Hh params.N)).2.1
    sL sR _ _ params.N hN haL haR hsL1 hsR1 hvy hp2
  obtain ⟨t, hv1, hbl, hbr, ht⟩ := vectors_rows env.ORDER rows _
    (env.HashBP
      (env.commitVector (Decompose secret 2 params.N).1 (computeAR (Decompose secret 2 params.N).1).1
        alpha params.H params.Gg params.Hh params.N)
      (env.commitVectorBig sL sR rho params.H params.Gg params.Hh params.N)).2.1
    (env.HashBP (publicTau1s.foldl Multiply (ScalarBaseMult env t1))
      (publicTau2s.foldl Multiply (ScalarBaseMult env t2))).1
    sL sR _ _ params.N hN haL haR hsL1 hsR1 hvy hp2
  simp only [PartialProve.intermediates]
  rw [hc]
  refine ⟨_, t, rfl, ?_⟩
  · refine ⟨rfl, rfl, hbl, hbr, ?_, hv1, ?_⟩
    · simp only [PartialProve.vectors]
    · intro v hsec hv
      subst hsec
      simp only
      rw [ht, sum_poly rows _ _ (fun a : Int => (a : ZMod env.ORDER.natAbs)),
        sum_t0 rows _ (fun a : Int => (a : ZMod env.ORDER.natAbs))
          (bits_rows env.ORDER rows params.N _ haL),
        sum_bits_powers env.ORDER rows params.N v haL hp2 hv, ht1, ht2,
        cast_delta env.ORDER rows _ _ params.N hN hvy hp2]
      ring

/-! ## Group arithmetic and the protocol loop -/

/-- The loops of lines 83-85 and 89-91: the start point combined with every
element of the broadcast list. -/
theorem foldl_Multiply (init : P) (l : List P) : l.foldl Multiply init = init + l.sum := by
  induction l generalizing init with
  | nil => simp
  | cons p l ih => simp only [List.foldl_cons, ih, Multiply, List.sum_cons]; abel

/-- The broadcast elements tau_i.H sum to (sum of tau_i).H. -/
theorem sum_map_ScalarMult {α : Type} (h : P) (f : α → Int) (l : List α) :
    (l.map (fun a => ScalarMult h (f a))).sum = (l.map f).sum • h := by
  induction l with
  | nil => simp
  | cons a l ih =>
    simp only [ScalarMult] at ih
    simp only [List.map_cons, List.sum_cons, ScalarMult, add_smul, ih]

/-- In a group whose order divides ORDER, scalars with equal residues act
equally. -/
theorem smul_congr_of_cast (q : Int) (hord : ∀ p : P, q • p = 0) (a b : Int)
    (h : (a : ZMod q.natAbs) = (b : ZMod q.natAbs)) (p : P) : a • p = b • p := by
  obtain ⟨k, hk⟩ := modEq_of_cast q a b h
  have ha : a = b + k * q := by linarith
  rw [ha, add_smul, mul_smul, hord, smul_zero, add_zero]

/-- When the vector part does not panic and the inner-product setup succeeds,
every `PartialProve` call of the loop succeeds: the loop returns the partial
scalars, and every resulting context holds the same shared values. -/
theorem proveAll_spec (env : Collaborators P IPP IPF) (value : Int)
    (publicTau1s publicTau2s : List P) (alpha rho : Int) (sL sR : List Int)
    (params : BulletProofSetupParams P IPP) (st : Intermediates P) (ipp : IPP)
    (hst : PartialProve.intermediates env value publicTau1s publicTau2s alpha rho sL sR params
      = some st)
    (hsu : env.setupInnerProduct params.H params.Gg
        (env.updateGenerators params.Hh st.y params.N) st.tprime params.N = (ipp, none))
    (contexts : List (MPCContext P IPP IPF)) (blinds : List Int)
    (hlen : contexts.length = blinds.length) :
    ∃ contexts1, proveAll env value publicTau1s publicTau2s alpha rho sL sR params contexts blinds
        = some (contexts1, List.zipWith (fun (c : MPCContext P IPP IPF) g =>
            PartialProve.taux env.ORDER c.tau1 c.tau2 g st.x st.z) contexts blinds) ∧
      contexts1.length = contexts.length ∧
      ∀ c ∈ contexts1, c.A = some st.A ∧ c.S = some st.S ∧ c.T1 = some st.T1 ∧
        c.T2 = some st.T2 ∧ c.Tprime = st.tprime ∧
        c.InnerProductProof = some (env.proveInnerProduct st.bl st.br
          (env.commitInnerProduct params.Gg
            (env.updateGenerators params.Hh st.y params.N) st.bl st.br) ipp).1 ∧
        c.Params = some { params with InnerProductParams := ipp } := by
  induction contexts generalizing blinds with
  | nil => exact ⟨[], by simp [proveAll], rfl, by simp⟩
  | cons c contexts ih =>
    match blinds, hlen with
    | g :: blinds, hlen =>
      simp only [List.length_cons, Nat.add_right_cancel_iff] at hlen
      obtain ⟨cs1, h1, h2, h3⟩ := ih blinds hlen
      have hp := PartialProve_of_intermediates env c value g publicTau1s publicTau2s alpha rho
        sL sR params st hst
      rw [hsu] at hp
      simp only [proveAll, hp, h1, List.zipWith_cons_cons]
      refine ⟨_, rfl, by simp [h2], ?_⟩
      intro c1 hc1
      rcases List.mem_cons.mp hc1 with hc1 | hc1
      · subst hc1
        exact ⟨rfl, rfl, rfl, rfl, rfl, rfl, rfl⟩
      · exact h3 c1 hc1

/-! ## The verifier on an aggregated proof -/

/-- The verifier's polynomial check on an aggregated proof, as one equation in H. -/
theorem check_iff (q : Int) (hord : ∀ p : P, q • p = 0) (B H : P)
    (t taux z x value delta t1 t2 sumTau1 sumTau2 sumBlinds committed : Int)
    (ht : (t : ZMod q.natAbs) = (z : ZMod q.natAbs) * z * value + delta + t1 * x + t2 * x ^ 2)
    (htaux : (taux : ZMod q.natAbs) = (sumTau2 : ZMod q.natAbs) * x ^ 2 + sumTau1 * x
      + z * z * sumBlinds) :
    (t • B + taux • H =
      bn.Mod (bn.Multiply z z) q • (value • B + committed • H) + delta • B
        + x • (t1 • B + sumTau1 • H) + bn.Mod (bn.Multiply x x) q • (t2 • B + sumTau2 • H))
    ↔ (z * z * (sumBlinds - committed)) • H = 0 := by
  have e1 : t • B = (z * z * value + delta + t1 * x + t2 * x ^ 2) • B :=
    smul_congr_of_cast q hord _ _ (by rw [ht]; push_cast; ring) B
  have e2 : taux • H = (sumTau2 * x ^ 2 + sumTau1 * x + z * z * sumBlinds) • H :=
    smul_congr_of_cast q hord _ _ (by rw [htaux]; push_cast; ring) H
  have e3 : ∀ p : P, bn.Mod (bn.Multiply z z) q • p = (z * z) • p := fun p =>
    smul_congr_of_cast q hord _ _ (by rw [cast_Mod]; rfl) p
  have e4 : ∀ p : P, bn.Mod (bn.Multiply x x) q • p = (x * x) • p := fun p =>
    smul_congr_of_cast q hord _ _ (by rw [cast_Mod]; rfl) p
  rw [e1, e2, e3, e4, ← sub_eq_zero]
  have key : (z * z * value + delta + t1 * x + t2 * x ^ 2) • B
        + (sumTau2 * x ^ 2 + sumTau1 * x + z * z * sumBlinds) • H
        - ((z * z) • (value • B + committed • H) + delta • B
          + x • (t1 • B + sumTau1 • H) + (x * x) • (t2 • B + sumTau2 • H))
      = (z * z * (sumBlinds - committed)) • H := by
    module
  rw [key]

/-! ## The toy instance meets the hypotheses -/

/-- The toy group has order 11. -/
theorem toy_order : ∀ p : ZMod 11, toyEnv.ORDER • p = 0 := by decide

/-- The toy inner-product setup succeeds on the toy parameters. -/
theorem toy_setup (y : Int) (tprime : Option Int) :
    (toyEnv.setupInnerProduct toyParams.H toyParams.Gg
      (toyEnv.updateGenerators toyParams.Hh y toyParams.N) tprime toyParams.N).2 = none := by
  simp [toyEnv, toyParams, toySetupInnerProduct, powerOf, powerOfLoop]

/-! ## Round 1: `StartMPC` -/

/-- C10. `StartMPC` returns a context whose `tau1` and `tau2` are the sampled
scalars, in `[0, ORDER)`, whose A, S, T1, T2, Mu, Tprime and Commit are unset,
and public elements `tau1H = ScalarMult(params.H, tau1)` and
`tau2H = ScalarMult(params.H, tau2)`. -/
theorem StartMPC_result (env : Collaborators P IPP IPF) (params : BulletProofSetupParams P IPP)
    (r1 r2 : RandInt env.ORDER) :
    (0 ≤ (StartMPC env params r1 r2).1.tau1 ∧ (StartMPC env params r1 r2).1.tau1 < env.ORDER) ∧
    (0 ≤ (StartMPC env params r1 r2).1.tau2 ∧ (StartMPC env params r1 r2).1.tau2 < env.ORDER) ∧
    (StartMPC env params r1 r2).1.A = none ∧
    (StartMPC env params r1 r2).1.S = none ∧
    (StartMPC env params r1 r2).1.T1 = none ∧
    (StartMPC env params r1 r2).1.T2 = none ∧
    (StartMPC env params r1 r2).1.Mu = none ∧
    (StartMPC env params r1 r2).1.Tprime = none ∧
    (StartMPC env params r1 r2).1.Commit = none ∧
    (StartMPC env params r1 r2).2.1 = ScalarMult params.H (StartMPC env params r1 r2).1.tau1 ∧
    (StartMPC env params r1 r2).2.2 = ScalarMult params.H (StartMPC env params r1 r2).1.tau2 :=
  ⟨r1.property, r2.property, rfl, rfl, rfl, rfl, rfl, rfl, rfl, rfl, rfl⟩

/-! ## Round 2: `PartialProve` -/

/-- C4. Determinism and independence from the private inputs: if a
`PartialProve` call succeeds, a call with the same secret, `alpha`, `rho`,
`sL`, `sR`, broadcast lists and params on any other context with any other
`gamma` succeeds too, and the two resulting contexts agree on A, S, T1, T2, Mu,
Tprime, Commit and InnerProductProof. -/
theorem PartialProve_deterministic (env : Collaborators P IPP IPF)
    (context1 context2 : MPCContext P IPP IPF) (secret gamma1 gamma2 : Int)
    (publicTau1s publicTau2s : List P) (alpha rho : Int) (sL sR : List Int)
    (params : BulletProofSetupParams P IPP) (result1 : MPCContext P IPP IPF) (taux1 : Int)
    (h : PartialProve env context1 secret gamma1 publicTau1s publicTau2s alpha rho sL sR params
      = some (result1, some taux1, none)) :
    ∃ result2 taux2,
      PartialProve env context2 secret gamma2 publicTau1s publicTau2s alpha rho sL sR params
        = some (result2, some taux2, none) ∧
      result1.A = result2.A ∧ result1.S = result2.S ∧ result1.T1 = result2.T1 ∧
      result1.T2 = result2.T2 ∧ result1.Mu = result2.Mu ∧ result1.Tprime = result2.Tprime ∧
      result1.Commit = result2.Commit ∧
      result1.InnerProductProof = result2.InnerProductProof := by
  obtain ⟨st, ipp, hst, hsu, _, hr⟩ := PartialProve_success env context1 secret gamma1
    publicTau1s publicTau2s alpha rho sL sR params result1 taux1 h
  have h2 := PartialProve_of_intermediates env context2 secret gamma2 publicTau1s publicTau2s
    alpha rho sL sR params st hst
  rw [hsu] at h2
  subst hr
  exact ⟨_, _, h2, rfl, rfl, rfl, rfl, rfl, rfl, rfl, rfl⟩

/-- Witness of C4: the two toy participants, with different round-1 secrets
and blinding shares. -/
theorem PartialProve_deterministic_witness :
    ∃ result2 taux2,
      PartialProve toyEnv (toyContext 7 9) 3 9 toyPublicTau1s toyPublicTau2s 6 7 [1, 2] [3, 4]
        toyParams = some (result2, some taux2, none) ∧
      toyContextProved.A = result2.A ∧ toyContextProved.S = result2.S ∧
      toyContextProved.T1 = result2.T1 ∧ toyContextProved.T2 = result2.T2 ∧
      toyContextProved.Mu = result2.Mu ∧ toyContextProved.Tprime = result2.Tprime ∧
      toyContextProved.Commit = result2.Commit ∧
      toyContextProved.InnerProductProof = result2.InnerProductProof :=
  PartialProve_deterministic toyEnv (toyContext 3 4) (toyContext 7 9) 3 5 9 toyPublicTau1s
    toyPublicTau2s 6 7 [1, 2] [3, 4] toyParams toyContextProved 2 (by decide)

/-- C5. The `taux` a successful `PartialProve` returns is
(tau2.x^2 + tau1.x + z^2.gamma) mod ORDER for the context's `tau1`, `tau2`, the
argument `gamma`, `z` the second component of HashBP(A, S) and `x` the first
component of HashBP(T1, T2), at the A, S, T1, T2 the call stored. -/
theorem PartialProve_taux_formula (env : Collaborators P IPP IPF)
    (context : MPCContext P IPP IPF) (secret gamma : Int) (publicTau1s publicTau2s : List P)
    (alpha rho : Int) (sL sR : List Int) (params : BulletProofSetupParams P IPP)
    (result : MPCContext P IPP IPF) (taux : Int)
    (h : PartialProve env context secret gamma publicTau1s publicTau2s alpha rho sL sR params
      = some (result, some taux, none)) :
    ∃ A S T1 T2, result.A = some A ∧ result.S = some S ∧ result.T1 = some T1 ∧
      result.T2 = some T2 ∧
      taux = (context.tau2 * (env.HashBP T1 T2).1 ^ 2 + context.tau1 * (env.HashBP T1 T2).1
        + (env.HashBP A S).2.1 ^ 2 * gamma) % env.ORDER := by
  obtain ⟨st, ipp, hst, hsu, ht, hr⟩ := PartialProve_success env context secret gamma
    publicTau1s publicTau2s alpha rho sL sR params result taux h
  obtain ⟨_, hz, hx⟩ := intermediates_challenges env secret publicTau1s publicTau2s alpha rho
    sL sR params st hst
  subst hr
  refine ⟨st.A, st.S, st.T1, st.T2, rfl, rfl, rfl, rfl, ?_⟩
  rw [ht, ← hz, ← hx]
  simp only [PartialProve.taux, bn.Mod, bn.Add, bn.Multiply]
  congr 1
  ring

/-- Witness of C5: the first toy participant, whose challenges are x = 20 and
z = 4. -/
theorem PartialProve_taux_formula_witness :
    ∃ A S T1 T2, toyContextProved.A = some A ∧ toyContextProved.S = some S ∧
      toyContextProved.T1 = some T1 ∧ toyContextProved.T2 = some T2 ∧
      (2 : Int) = ((toyContext 3 4).tau2 * (toyEnv.HashBP T1 T2).1 ^ 2
        + (toyContext 3 4).tau1 * (toyEnv.HashBP T1 T2).1
        + (toyEnv.HashBP A S).2.1 ^ 2 * 5) % toyEnv.ORDER :=
  PartialProve_taux_formula toyEnv (toyContext 3 4) 3 5 toyPublicTau1s toyPublicTau2s 6 7
    [1, 2] [3, 4] toyParams toyContextProved 2 (by decide)

/-- C9. On `sL`, `sR` of length N (the inputs on which the call does not
panic) `PartialProve` returns a non-nil error exactly when
setupInnerProduct(H, Gg, hprime, tprime, N) returns one, for
hprime = updateGenerators(Hh, y, N) and the `tprime` of the call; the error
returned is then the setup error, `taux` is nil and the context is the one
before the call. -/
theorem PartialProve_error_iff (env : Collaborators P IPP IPF)
    (context : MPCContext P IPP IPF) (secret gamma : Int) (publicTau1s publicTau2s : List P)
    (alpha rho : Int) (sL sR : List Int) (params : BulletProofSetupParams P IPP)
    (hsL : sL.length = params.N) (hsR : sR.length = params.N) :
    ∃ st result taux err,
      PartialProve.intermediates env secret publicTau1s publicTau2s alpha rho sL sR params
        = some st ∧
      PartialProve env context secret gamma publicTau1s publicTau2s alpha rho sL sR params
        = some (result, taux, err) ∧
      (err ≠ none ↔ (env.setupInnerProduct params.H params.Gg
        (env.updateGenerators params.Hh st.y params.N) st.tprime params.N).2 ≠ none) ∧
      (err ≠ none →
        err = (env.setupInnerProduct params.H params.Gg
          (env.updateGenerators params.Hh st.y params.N) st.tprime params.N).2 ∧
        taux = none ∧ result = context) := by
  obtain ⟨st, t, hst, -⟩ := intermediates_valid env secret publicTau1s publicTau2s alpha rho
    sL sR params hsL hsR
  have hp := PartialProve_of_intermediates env context secret gamma publicTau1s publicTau2s
    alpha rho sL sR params st hst
  rcases hsu : env.setupInnerProduct params.H params.Gg
      (env.updateGenerators params.Hh st.y params.N) st.tprime params.N with ⟨ipp, _ | e⟩
  · rw [hsu] at hp
    exact ⟨st, _, _, _, hst, hp, by simp [hsu], by simp⟩
  · rw [hsu] at hp
    exact ⟨st, _, _, _, hst, hp, by simp [hsu], by simp [hsu]⟩

/-- Witness of C9: on the toy parameters with a short `Gg` the setup fails and
the call returns its error. -/
theorem PartialProve_error_iff_witness :
    ∃ st result taux err,
      PartialProve.intermediates toyEnv 3 toyPublicTau1s toyPublicTau2s 6 7 [1, 2] [3, 4]
        toyParamsShort = some st ∧
      PartialProve toyEnv (toyContext 3 4) 3 5 toyPublicTau1s toyPublicTau2s 6 7 [1, 2] [3, 4]
        toyParamsShort = some (result, taux, err) ∧
      (err ≠ none ↔ (toyEnv.setupInnerProduct toyParamsShort.H toyParamsShort.Gg
        (toyEnv.updateGenerators toyParamsShort.Hh st.y toyParamsShort.N) st.tprime
        toyParamsShort.N).2 ≠ none) ∧
      (err ≠ none →
        err = (toyEnv.setupInnerProduct toyParamsShort.H toyParamsShort.Gg
          (toyEnv.updateGenerators toyParamsShort.Hh st.y toyParamsShort.N) st.tprime
          toyParamsShort.N).2 ∧
        taux = none ∧ result = toyContext 3 4) :=
  PartialProve_error_iff toyEnv (toyContext 3 4) 3 5 toyPublicTau1s toyPublicTau2s 6 7
    [1, 2] [3, 4] toyParamsShort rfl rfl

/-- The decomposition of 2^N into N bits reports InvalidRange. -/
theorem Decompose_out_of_range (N : Nat) : (Decompose (2 ^ N) 2 N).2 = some "InvalidRange" := by
  simp [Decompose]

/-- C6 (counterexample). With bit-length 2 and the secret 4 = 2^2 the
decomposition reports InvalidRange, and `PartialProve` still returns a `taux`
with a nil error and stores a proof state. -/
theorem PartialProve_out_of_range_no_error :
    toyParams.N = 2 ∧ (Decompose 4 2 2).2 = some "InvalidRange" ∧
    (PartialProve toyEnv (toyContext 3 4) 4 5 toyPublicTau1s toyPublicTau2s 6 7 [1, 2] [3, 4]
      toyParams).map (fun r => (r.1.A, r.1.Tprime, r.2)) = some (some 1, some 3, some 0, none) := by
  decide

/-- C6 (amended). A `PartialProve` call whose secret is 2^N does not return
the error of the bit-decomposition: `Decompose` reports InvalidRange, the call
discards it, and the error it returns is the one of `setupInnerProduct` (nil
when the setup succeeds, in which case a `taux` is returned and the proof state
is stored). -/
theorem PartialProve_out_of_range (env : Collaborators P IPP IPF)
    (context : MPCContext P IPP IPF) (gamma : Int) (publicTau1s publicTau2s : List P)
    (alpha rho : Int) (sL sR : List Int) (params : BulletProofSetupParams P IPP)
    (hsL : sL.length = params.N) (hsR : sR.length = params.N) :
    (Decompose (2 ^ params.N) 2 params.N).2 = some "InvalidRange" ∧
    ∃ st result taux err,
      PartialProve.intermediates env (2 ^ params.N) publicTau1s publicTau2s alpha rho sL sR
        params = some st ∧
      PartialProve env context (2 ^ params.N) gamma publicTau1s publicTau2s alpha rho sL sR
        params = some (result, taux, err) ∧
      err = (env.setupInnerProduct params.H params.Gg
        (env.updateGenerators params.Hh st.y params.N) st.tprime params.N).2 ∧
      (err = none →
        taux = some (PartialProve.taux env.ORDER context.tau1 context.tau2 gamma st.x st.z) ∧
        result.A = some st.A ∧ result.S = some st.S ∧ result.T1 = some st.T1 ∧
        result.T2 = some st.T2 ∧ result.Tprime = st.tprime) := by
  refine ⟨Decompose_out_of_range params.N, ?_⟩
  obtain ⟨st, t, hst, -⟩ := intermediates_valid env (2 ^ params.N) publicTau1s publicTau2s
    alpha rho sL sR params hsL hsR
  have hp := PartialProve_of_intermediates env context (2 ^ params.N) gamma publicTau1s
    publicTau2s alpha rho sL sR params st hst
  rcases hsu : env.setupInnerProduct params.H params.Gg
      (env.updateGenerators params.Hh st.y params.N) st.tprime params.N with ⟨ipp, _ | e⟩
  · rw [hsu] at hp
    exact ⟨st, _, _, _, hst, hp, by simp [hsu], fun _ => ⟨rfl, rfl, rfl, rfl, rfl, rfl⟩⟩
  · rw [hsu] at hp
    exact ⟨st, _, _, _, hst, hp, by simp [hsu], by simp⟩

/-- Witness of C6 (amended): the toy parameters of bit-length 2. -/
theorem PartialProve_out_of_range_witness :
    (Decompose (2 ^ toyParams.N) 2 toyParams.N).2 = some "InvalidRange" ∧
    ∃ st result taux err,
      PartialProve.intermediates toyEnv (2 ^ toyParams.N) toyPublicTau1s toyPublicTau2s 6 7
        [1, 2] [3, 4] toyParams = some st ∧
      PartialProve toyEnv (toyContext 3 4) (2 ^ toyParams.N) 5 toyPublicTau1s toyPublicTau2s
        6 7 [1, 2] [3, 4] toyParams = some (result, taux, err) ∧
      err = (toyEnv.setupInnerProduct toyParams.H toyParams.Gg
        (toyEnv.updateGenerators toyParams.Hh st.y toyParams.N) st.tprime toyParams.N).2 ∧
      (err = none →
        taux = some (PartialProve.taux toyEnv.ORDER (toyContext 3 4).tau1 (toyContext 3 4).tau2
          5 st.x st.z) ∧
        result.A = some st.A ∧ result.S = some st.S ∧ result.T1 = some st.T1 ∧
        result.T2 = some st.T2 ∧ result.Tprime = st.tprime) :=
  PartialProve_out_of_range toyEnv (toyContext 3 4) 5 toyPublicTau1s toyPublicTau2s 6 7
    [1, 2] [3, 4] toyParams rfl rfl

/-! ## Linearity of the partial scalars -/

/-- The partial scalars a successful loop collects are the per-participant
values of lines 111-115 at the shared challenges. -/
theorem proveAll_tauxs (env : Collaborators P IPP IPF) (value : Int)
    (publicTau1s publicTau2s : List P) (alpha rho : Int) (sL sR : List Int)
    (params : BulletProofSetupParams P IPP) (st : Intermediates P)
    (hst : PartialProve.intermediates env value publicTau1s publicTau2s alpha rho sL sR params
      = some st)
    (contexts contexts1 : List (MPCContext P IPP IPF)) (blinds tauxs : List Int)
    (hlen : contexts.length = blinds.length)
    (hall : proveAll env value publicTau1s publicTau2s alpha rho sL sR params contexts blinds
      = some (contexts1, tauxs)) :
    tauxs = List.zipWith (fun (c : MPCContext P IPP IPF) g =>
      PartialProve.taux env.ORDER c.tau1 c.tau2 g st.x st.z) contexts blinds := by
  induction contexts generalizing blinds contexts1 tauxs with
  | nil =>
    match blinds, hlen with
    | [], _ =>
      simp only [proveAll, Option.some.injEq, Prod.mk.injEq] at hall
      simp [← hall.2]
  | cons c contexts ih =>
    match blinds, hlen with
    | g :: blinds, hlen =>
      simp only [List.length_cons, Nat.add_right_cancel_iff] at hlen
      have hp := PartialProve_of_intermediates env c value g publicTau1s publicTau2s alpha rho
        sL sR params st hst
      rcases hsu : env.setupInnerProduct params.H params.Gg
          (env.updateGenerators params.Hh st.y params.N) st.tprime params.N with ⟨ipp, _ | e⟩
      · rw [hsu] at hp
        simp only [proveAll, hp] at hall
        cases hrest : proveAll env value publicTau1s publicTau2s alpha rho sL sR params
            contexts blinds with
        | none => rw [hrest] at hall; simp at hall
        | some r =>
          obtain ⟨cs, ts⟩ := r
          rw [hrest] at hall
          simp only [Option.some.injEq, Prod.mk.injEq] at hall
          rw [← hall.2, List.zipWith_cons_cons, ← ih cs blinds ts hlen hrest]
      · rw [hsu] at hp
        simp only [proveAll, hp] at hall
        simp at hall

/-- C2. Linearity: when the M `PartialProve` calls of a run succeed on shared
inputs (so that the challenges `x` and `z` are the same for all participants),
the sum of the returned `taux_i`, which `Aggregate` stores in `Taux`, reduced
modulo the field order equals the single-prover value
(tau2.x^2 + tau1.x + z^2.gamma) mod ORDER computed with tau1 = sum of tau1_i,
tau2 = sum of tau2_i, gamma = sum of gamma_i. -/
theorem taux_linearity (env : Collaborators P IPP IPF) (value : Int)
    (publicTau1s publicTau2s : List P) (alpha rho : Int) (sL sR : List Int)
    (params : BulletProofSetupParams P IPP) (x z : Int)
    (contexts : List (MPCContext P IPP IPF)) (blinds tauxs : List Int)
    (context : MPCContext P IPP IPF) (v : P)
    (hst : (PartialProve.intermediates env value publicTau1s publicTau2s alpha rho sL sR
      params).map (fun st => (st.x, st.z)) = some (x, z))
    (hlen : contexts.length = blinds.length)
    (hall : (proveAll env value publicTau1s publicTau2s alpha rho sL sR params contexts
      blinds).map (fun r => r.2) = some tauxs) :
    (Aggregate context v tauxs).2.1.Taux = some tauxs.sum ∧
    tauxs.sum % env.ORDER =
      ((contexts.map (fun c => c.tau2)).sum * x ^ 2
        + (contexts.map (fun c => c.tau1)).sum * x
        + z ^ 2 * blinds.sum) % env.ORDER ∧
    tauxs.sum % env.ORDER =
      PartialProve.taux env.ORDER (contexts.map (fun c => c.tau1)).sum
        (contexts.map (fun c => c.tau2)).sum blinds.sum x z := by
  cases hi : PartialProve.intermediates env value publicTau1s publicTau2s alpha rho sL sR
      params with
  | none => rw [hi] at hst; simp at hst
  | some st =>
    rw [hi] at hst
    simp only [Option.map_some', Option.some.injEq, Prod.mk.injEq] at hst
    obtain ⟨hx, hz⟩ := hst
    subst hx hz
    cases ha : proveAll env value publicTau1s publicTau2s alpha rho sL sR params contexts
        blinds with
    | none => rw [ha] at hall; simp at hall
    | some r =>
      obtain ⟨contexts1, ts⟩ := r
      rw [ha] at hall
      simp only [Option.map_some', Option.some.injEq] at hall
      subst hall
      have ht := proveAll_tauxs env value publicTau1s publicTau2s alpha rho sL sR params st hi
        contexts contexts1 blinds ts hlen ha
      have hc := cast_sum_taux env.ORDER st.x st.z contexts blinds hlen
      rw [← ht] at hc
      have h1 : ts.sum % env.ORDER =
          ((contexts.map (fun c => c.tau2)).sum * st.x ^ 2
            + (contexts.map (fun c => c.tau1)).sum * st.x
            + st.z ^ 2 * blinds.sum) % env.ORDER := by
        apply emod_eq_of_cast
        rw [hc]
        push_cast
        ring
      refine ⟨?_, h1, ?_⟩
      · simp [Aggregate, foldl_Add]
      · rw [h1]
        simp only [PartialProve.taux, bn.Mod, bn.Add, bn.Multiply]
        congr 1
        ring

/-- Witness of C2: the two toy participants, whose partial scalars are 2 and 1
at the challenges x = 20 and z = 4. -/
theorem taux_linearity_witness :
    (Aggregate toyContextProved (0 : ZMod 11) [2, 1]).2.1.Taux = some ([2, 1] : List Int).sum ∧
    ([2, 1] : List Int).sum % toyEnv.ORDER =
      (([toyContext 3 4, toyContext 7 9].map (fun c => c.tau2)).sum * 20 ^ 2
        + ([toyContext 3 4, toyContext 7 9].map (fun c => c.tau1)).sum * 20
        + 4 ^ 2 * ([5, 9] : List Int).sum) % toyEnv.ORDER ∧
    ([2, 1] : List Int).sum % toyEnv.ORDER =
      PartialProve.taux toyEnv.ORDER ([toyContext 3 4, toyContext 7 9].map (fun c => c.tau1)).sum
        ([toyContext 3 4, toyContext 7 9].map (fun c => c.tau2)).sum ([5, 9] : List Int).sum
        20 4 :=
  taux_linearity toyEnv 3 toyPublicTau1s toyPublicTau2s 6 7 [1, 2] [3, 4] toyParams 20 4
    [toyContext 3 4, toyContext 7 9] [5, 9] [2, 1] toyContextProved 0 (by decide) rfl
    (by decide)

/-! ## The stages of a `PartialProve` call -/

/-- The intermediate values of a call are the results of its stages: the bit
vectors of lines 37-38, the coefficients of lines 46-79, the commitments of
lines 82-91 and the vectors of lines 96-109 at the challenges of the call. -/
theorem intermediates_stages (env : Collaborators P IPP IPF) (secret : Int)
    (publicTau1s publicTau2s : List P) (alpha rho : Int) (sL sR : List Int)
    (params : BulletProofSetupParams P IPP) (st : Intermediates P)
    (h : PartialProve.intermediates env secret publicTau1s publicTau2s alpha rho sL sR params
      = some st) :
    st.aL = (Decompose secret 2 params.N).1 ∧ st.aR = (computeAR st.aL).1 ∧
    PartialProve.coefficients env.ORDER st.aL st.aR sL sR st.y st.z params.N
      = some (st.t1, st.t2) ∧
    st.T1 = publicTau1s.foldl Multiply (ScalarBaseMult env st.t1) ∧
    st.T2 = publicTau2s.foldl Multiply (ScalarBaseMult env st.t2) ∧
    PartialProve.vectors env.ORDER st.aL st.aR sL sR st.y st.z st.x params.N
      = (st.bl, st.br, st.tprime) := by
  simp only [PartialProve.intermediates] at h
  split at h
  · exact absurd h (by simp)
  · rename_i t1 t2 hc
    simp only [Option.some.injEq] at h
    subst h
    exact ⟨rfl, rfl, hc, rfl, rfl, rfl⟩

/-- The Tprime a successful `PartialProve` stores, on `sL`, `sR` of length N,
is congruent modulo ORDER to t0 + t1.x + t2.x^2 for the bit vectors,
coefficients and challenges of the call. -/
theorem PartialProve_tprime_polynomial (env : Collaborators P IPP IPF)
    (context : MPCContext P IPP IPF) (secret gamma : Int) (publicTau1s publicTau2s : List P)
    (alpha rho : Int) (sL sR : List Int) (params : BulletProofSetupParams P IPP)
    (result : MPCContext P IPP IPF) (taux : Int)
    (hsL : sL.length = params.N) (hsR : sR.length = params.N)
    (h : PartialProve env context secret gamma publicTau1s publicTau2s alpha rho sL sR params
      = some (result, some taux, none)) :
    ∃ st tprime,
      PartialProve.intermediates env secret publicTau1s publicTau2s alpha rho sL sR params
        = some st ∧
      result.Tprime = some tprime ∧
      tprime % env.ORDER = (specT0 st.aL st.aR st.y st.z params.N + st.t1 * st.x
        + st.t2 * st.x ^ 2) % env.ORDER := by
  obtain ⟨st, ipp, hst, hsu, _, hr⟩ := PartialProve_success env context secret gamma
    publicTau1s publicTau2s alpha rho sL sR params result taux h
  obtain ⟨haL, haR, hc, -, -, hv⟩ := intermediates_stages env secret publicTau1s publicTau2s
    alpha rho sL sR params st hst
  have hlenL : st.aL.length = params.N := by rw [haL]; exact digits_length _ _ _
  have hlenR : st.aR.length = params.N := by rw [haR]; simp [computeAR, hlenL]
  obtain ⟨t1, t2, tprime, h1, h2, h3⟩ := tprime_polynomial_of_lengths env.ORDER st.aL st.aR
    sL sR st.y st.z st.x params.N hlenL hlenR hsL hsR
  rw [hc] at h1
  simp only [Option.some.injEq, Prod.mk.injEq] at h1
  rw [hv] at h2
  subst hr
  refine ⟨st, tprime, hst, h2, ?_⟩
  rw [h1.1, h1.2]
  exact h3

/-! ## The stored commitments, scalars and parameters -/

/-- C12. Folding of the broadcast blinding commitments: the T1 a successful
`PartialProve` stores is ScalarBaseMult(t1) combined by the group operation
with every element of `publicTau1s`, T2 is ScalarBaseMult(t2) combined with
every element of `publicTau2s`, for the coefficients `t1`, `t2` of the call;
when the broadcast elements are tau1_i.H and tau2_i.H, T1 and T2 are the
Pedersen commitments t1.G + (sum of tau1_i).H and t2.G + (sum of tau2_i).H. -/
theorem PartialProve_T1_T2 (env : Collaborators P IPP IPF)
    (context : MPCContext P IPP IPF) (secret gamma : Int) (publicTau1s publicTau2s : List P)
    (alpha rho : Int) (sL sR : List Int) (params : BulletProofSetupParams P IPP)
    (result : MPCContext P IPP IPF) (taux : Int)
    (h : PartialProve env context secret gamma publicTau1s publicTau2s alpha rho sL sR params
      = some (result, some taux, none)) :
    ∃ st, PartialProve.intermediates env secret publicTau1s publicTau2s alpha rho sL sR params
        = some st ∧
      PartialProve.coefficients env.ORDER st.aL st.aR sL sR st.y st.z params.N
        = some (st.t1, st.t2) ∧
      result.T1 = some (publicTau1s.foldl Multiply (ScalarBaseMult env st.t1)) ∧
      result.T2 = some (publicTau2s.foldl Multiply (ScalarBaseMult env st.t2)) ∧
      ∀ tau1s tau2s : List Int,
        publicTau1s = tau1s.map (fun t => ScalarMult params.H t) →
        publicTau2s = tau2s.map (fun t => ScalarMult params.H t) →
        result.T1 = some (CommitG1 env st.t1 tau1s.sum params.H).1 ∧
        result.T2 = some (CommitG1 env st.t2 tau2s.sum params.H).1 := by
  obtain ⟨st, ipp, hst, hsu, _, hr⟩ := PartialProve_success env context secret gamma
    publicTau1s publicTau2s alpha rho sL sR params result taux h
  obtain ⟨-, -, hc, hT1, hT2, -⟩ := intermediates_stages env secret publicTau1s publicTau2s
    alpha rho sL sR params st hst
  subst hr
  refine ⟨st, hst, hc, by rw [← hT1], by rw [← hT2], ?_⟩
  intro tau1s tau2s h1 h2
  constructor
  · show some st.T1 = _
    rw [hT1, h1, foldl_Multiply, sum_map_ScalarMult]
    simp [CommitG1, Multiply, ScalarMult]
  · show some st.T2 = _
    rw [hT2, h2, foldl_Multiply, sum_map_ScalarMult]
    simp [CommitG1, Multiply, ScalarMult]

/-- Witness of C12: the first toy participant, with the broadcasts of the
round-1 secrets (3, 7) and (4, 9) under H = 2. -/
theorem PartialProve_T1_T2_witness :
    ∃ st, PartialProve.intermediates toyEnv 3 toyPublicTau1s toyPublicTau2s 6 7 [1, 2] [3, 4]
        toyParams = some st ∧
      PartialProve.coefficients toyEnv.ORDER st.aL st.aR [1, 2] [3, 4] st.y st.z toyParams.N
        = some (st.t1, st.t2) ∧
      toyContextProved.T1 = some (toyPublicTau1s.foldl Multiply (ScalarBaseMult toyEnv st.t1)) ∧
      toyContextProved.T2 = some (toyPublicTau2s.foldl Multiply (ScalarBaseMult toyEnv st.t2)) ∧
      ∀ tau1s tau2s : List Int,
        toyPublicTau1s = tau1s.map (fun t => ScalarMult toyParams.H t) →
        toyPublicTau2s = tau2s.map (fun t => ScalarMult toyParams.H t) →
        toyContextProved.T1 = some (CommitG1 toyEnv st.t1 tau1s.sum toyParams.H).1 ∧
        toyContextProved.T2 = some (CommitG1 toyEnv st.t2 tau2s.sum toyParams.H).1 :=
  PartialProve_T1_T2 toyEnv (toyContext 3 4) 3 5 toyPublicTau1s toyPublicTau2s 6 7
    [1, 2] [3, 4] toyParams toyContextProved 2 (by decide)

/-- C14. The Mu a successful `PartialProve` stores is (alpha + rho.x) mod
ORDER for `x` the first component of HashBP(T1, T2) at the stored T1, T2; a call
on any other context with any other `gamma` stores the same Mu. -/
theorem PartialProve_mu (env : Collaborators P IPP IPF)
    (context : MPCContext P IPP IPF) (secret gamma : Int) (publicTau1s publicTau2s : List P)
    (alpha rho : Int) (sL sR : List Int) (params : BulletProofSetupParams P IPP)
    (result : MPCContext P IPP IPF) (taux : Int)
    (h : PartialProve env context secret gamma publicTau1s publicTau2s alpha rho sL sR params
      = some (result, some taux, none)) :
    (∃ T1 T2, result.T1 = some T1 ∧ result.T2 = some T2 ∧
      result.Mu = some ((alpha + rho * (env.HashBP T1 T2).1) % env.ORDER)) ∧
    ∀ (context2 : MPCContext P IPP IPF) (gamma2 : Int), ∃ result2 taux2,
      PartialProve env context2 secret gamma2 publicTau1s publicTau2s alpha rho sL sR params
        = some (result2, some taux2, none) ∧
      result2.Mu = result.Mu := by
  obtain ⟨st, ipp, hst, hsu, _, hr⟩ := PartialProve_success env context secret gamma
    publicTau1s publicTau2s alpha rho sL sR params result taux h
  obtain ⟨_, _, hx⟩ := intermediates_challenges env secret publicTau1s publicTau2s alpha rho
    sL sR params st hst
  subst hr
  refine ⟨⟨st.T1, st.T2, rfl, rfl, ?_⟩, ?_⟩
  · show some (PartialProve.mu env.ORDER alpha rho st.x) = _
    rw [← hx]
    simp only [PartialProve.mu, bn.Mod, bn.Add, bn.Multiply]
    rw [add_comm]
  · intro context2 gamma2
    have h2 := PartialProve_of_intermediates env context2 secret gamma2 publicTau1s publicTau2s
      alpha rho sL sR params st hst
    rw [hsu] at h2
    exact ⟨_, _, h2, rfl⟩

/-- Witness of C14: the first toy participant, alpha = 6, rho = 7, x = 20. -/
theorem PartialProve_mu_witness :
    (∃ T1 T2, toyContextProved.T1 = some T1 ∧ toyContextProved.T2 = some T2 ∧
      toyContextProved.Mu = some ((6 + 7 * (toyEnv.HashBP T1 T2).1) % toyEnv.ORDER)) ∧
    ∀ (context2 : MPCContext (ZMod 11) (Option Int) (List Int × List Int × Option Int))
      (gamma2 : Int), ∃ result2 taux2,
      PartialProve toyEnv context2 3 gamma2 toyPublicTau1s toyPublicTau2s 6 7 [1, 2] [3, 4]
        toyParams = some (result2, some taux2, none) ∧
      result2.Mu = toyContextProved.Mu :=
  PartialProve_mu toyEnv (toyContext 3 4) 3 5 toyPublicTau1s toyPublicTau2s 6 7
    [1, 2] [3, 4] toyParams toyContextProved 2 (by decide)

/-- C16. After a successful `PartialProve` the context's Params equals the
`params` argument in N, G, H, Gg and Hh, its InnerProductParams is the value
setupInnerProduct(params.H, params.Gg, hprime, tprime, params.N) returned for
hprime = updateGenerators(params.Hh, y, params.N), `y` the first challenge of
HashBP(A, S) and `tprime` the stored Tprime, and `tau1`, `tau2` are unchanged. -/
theorem PartialProve_params (env : Collaborators P IPP IPF)
    (context : MPCContext P IPP IPF) (secret gamma : Int) (publicTau1s publicTau2s : List P)
    (alpha rho : Int) (sL sR : List Int) (params : BulletProofSetupParams P IPP)
    (result : MPCContext P IPP IPF) (taux : Int)
    (h : PartialProve env context secret gamma publicTau1s publicTau2s alpha rho sL sR params
      = some (result, some taux, none)) :
    ∃ stored A S, result.Params = some stored ∧ result.A = some A ∧ result.S = some S ∧
      stored.N = params.N ∧ stored.G = params.G ∧ stored.H = params.H ∧
      stored.Gg = params.Gg ∧ stored.Hh = params.Hh ∧
      stored.InnerProductParams = (env.setupInnerProduct params.H params.Gg
        (env.updateGenerators params.Hh (env.HashBP A S).1 params.N) result.Tprime
        params.N).1 ∧
      result.tau1 = context.tau1 ∧ result.tau2 = context.tau2 := by
  obtain ⟨st, ipp, hst, hsu, _, hr⟩ := PartialProve_success env context secret gamma
    publicTau1s publicTau2s alpha rho sL sR params result taux h
  obtain ⟨hy, _, _⟩ := intermediates_challenges env secret publicTau1s publicTau2s alpha rho
    sL sR params st hst
  subst hr
  refine ⟨_, st.A, st.S, rfl, rfl, rfl, rfl, rfl, rfl, rfl, rfl, ?_, rfl, rfl⟩
  show ipp = _
  rw [← hy, hsu]

/-- Witness of C16: the first toy participant. -/
theorem PartialProve_params_witness :
    ∃ stored A S, toyContextProved.Params = some stored ∧ toyContextProved.A = some A ∧
      toyContextProved.S = some S ∧
      stored.N = toyParams.N ∧ stored.G = toyParams.G ∧ stored.H = toyParams.H ∧
      stored.Gg = toyParams.Gg ∧ stored.Hh = toyParams.Hh ∧
      stored.InnerProductParams = (toyEnv.setupInnerProduct toyParams.H toyParams.Gg
        (toyEnv.updateGenerators toyParams.Hh (toyEnv.HashBP A S).1 toyParams.N)
        toyContextProved.Tprime toyParams.N).1 ∧
      toyContextProved.tau1 = (toyContext 3 4).tau1 ∧
      toyContextProved.tau2 = (toyContext 3 4).tau2 :=
  PartialProve_params toyEnv (toyContext 3 4) 3 5 toyPublicTau1s toyPublicTau2s 6 7
    [1, 2] [3, 4] toyParams toyContextProved 2 (by decide)

/-- C18. Broadcast-order independence: on permutations of the two broadcast
lists `PartialProve` returns the same result, hence the same T1, T2, challenge
`x`, taux, Mu, Tprime, Commit and InnerProductProof. -/
theorem PartialProve_perm (env : Collaborators P IPP IPF)
    (context : MPCContext P IPP IPF) (secret gamma : Int)
    (publicTau1s publicTau2s permuted1 permuted2 : List P)
    (alpha rho : Int) (sL sR : List Int) (params : BulletProofSetupParams P IPP)
    (h1 : permuted1.Perm publicTau1s) (h2 : permuted2.Perm publicTau2s) :
    PartialProve.intermediates env secret permuted1 permuted2 alpha rho sL sR params
      = PartialProve.intermediates env secret publicTau1s publicTau2s alpha rho sL sR params ∧
    PartialProve env context secret gamma permuted1 permuted2 alpha rho sL sR params
      = PartialProve env context secret gamma publicTau1s publicTau2s alpha rho sL sR
        params := by
  have hi : PartialProve.intermediates env secret permuted1 permuted2 alpha rho sL sR params
      = PartialProve.intermediates env secret publicTau1s publicTau2s alpha rho sL sR
        params := by
    simp only [PartialProve.intermediates, foldl_Multiply, h1.sum_eq, h2.sum_eq]
  refine ⟨hi, ?_⟩
  unfold PartialProve
  rw [hi]

/-- Witness of C18: the two toy broadcast lists, each in reverse order. -/
theorem PartialProve_perm_witness :
    PartialProve.intermediates toyEnv 3 [3, 6] [7, 8] 6 7 [1, 2] [3, 4] toyParams
      = PartialProve.intermediates toyEnv 3 [6, 3] [8, 7] 6 7 [1, 2] [3, 4] toyParams ∧
    PartialProve toyEnv (toyContext 3 4) 3 5 [3, 6] [7, 8] 6 7 [1, 2] [3, 4] toyParams
      = PartialProve toyEnv (toyContext 3 4) 3 5 [6, 3] [8, 7] 6 7 [1, 2] [3, 4] toyParams :=
  PartialProve_perm toyEnv (toyContext 3 4) 3 5 [6, 3] [8, 7] [3, 6] [7, 8] 6 7 [1, 2] [3, 4]
    toyParams (List.Perm.swap _ _ _) (List.Perm.swap _ _ _)

/-- C15. Canonical residues: under a positive field order, for all integer
inputs, every scalar a successful `PartialProve` outputs, the returned `taux`
and the stored Mu and Tprime, is set and lies in `0 <= s < ORDER`. -/
theorem PartialProve_canonical (env : Collaborators P IPP IPF)
    (context : MPCContext P IPP IPF) (secret gamma : Int) (publicTau1s publicTau2s : List P)
    (alpha rho : Int) (sL sR : List Int) (params : BulletProofSetupParams P IPP)
    (result : MPCContext P IPP IPF) (taux : Int)
    (hq : 0 < env.ORDER)
    (h : PartialProve env context secret gamma publicTau1s publicTau2s alpha rho sL sR params
      = some (result, some taux, none)) :
    (0 ≤ taux ∧ taux < env.ORDER) ∧
    (∃ mu, result.Mu = some mu ∧ 0 ≤ mu ∧ mu < env.ORDER) ∧
    (∃ tprime, result.Tprime = some tprime ∧ 0 ≤ tprime ∧ tprime < env.ORDER) := by
  obtain ⟨st, ipp, hst, hsu, ht, hr⟩ := PartialProve_success env context secret gamma
    publicTau1s publicTau2s alpha rho sL sR params result taux h
  obtain ⟨haL, haR, hc, -, -, hv⟩ := intermediates_stages env secret publicTau1s publicTau2s
    alpha rho sL sR params st hst
  subst hr
  refine ⟨?_, ⟨_, rfl, Mod_range _ _ hq⟩, ?_⟩
  · rw [ht]
    exact Mod_range _ _ hq
  · have hlenL : st.aL.length = params.N := by rw [haL]; exact digits_length _ _ _
    have hlenR : st.aR.length = params.N := by rw [haR]; simp [computeAR, hlenL]
    have hne := vectors_tprime_of_coefficients env.ORDER st.aL st.aR sL sR st.y st.z st.x
      params.N hlenL hlenR _ hc
    have htp : (PartialProve.vectors env.ORDER st.aL st.aR sL sR st.y st.z st.x params.N).2.2
        = st.tprime := by rw [hv]
    rw [htp] at hne
    obtain ⟨t, ht1⟩ := Option.ne_none_iff_exists'.mp hne
    refine ⟨t, ht1, ?_⟩
    have hsp : (ScalarProduct env.ORDER st.bl st.br).1 = some t := by
      rw [← ht1, ← htp]
      have e1 : st.bl = (PartialProve.vectors env.ORDER st.aL st.aR sL sR st.y st.z st.x
          params.N).1 := by rw [hv]
      have e2 : st.br = (PartialProve.vectors env.ORDER st.aL st.aR sL sR st.y st.z st.x
          params.N).2.1 := by rw [hv]
      rw [e1, e2]
      rfl
    exact ScalarProduct_range env.ORDER hq _ _ t hsp

/-- Witness of C15: the first toy participant, with inputs outside `[0, 11)`:
gamma = -4, alpha = 13, rho = -7, and entries of `sL`, `sR` beyond the order. -/
theorem PartialProve_canonical_witness :
    PartialProve toyEnv (toyContext 3 4) 3 (-4) toyPublicTau1s toyPublicTau2s 13 (-7)
      [12, -2] [14, 4] toyParams = some (toyContextWide, some 3, none) ∧
    (0 ≤ (3 : Int) ∧ (3 : Int) < toyEnv.ORDER) ∧
    (∃ mu, toyContextWide.Mu = some mu ∧ 0 ≤ mu ∧ mu < toyEnv.ORDER) ∧
    (∃ tprime, toyContextWide.Tprime = some tprime ∧ 0 ≤ tprime ∧ tprime < toyEnv.ORDER) :=
  ⟨by decide,
    PartialProve_canonical toyEnv (toyContext 3 4) 3 (-4) toyPublicTau1s toyPublicTau2s 13
      (-7) [12, -2] [14, 4] toyParams toyContextWide 3 (by decide) (by decide)⟩

/-- C19. Discarded helper errors are unreachable under the length
precondition: for every params and every `sL`, `sR` of length N, each of the 19
vector helper calls of `PartialProve` whose error result is ignored
(VectorCopy, VectorConvertToBig, VectorSub, VectorMul, VectorAdd,
VectorScalarMul, ScalarProduct) returns a nil error, the call does not panic,
`tprime` is set, and `bl` and `br` have length N. -/
theorem helper_errors_unreachable (env : Collaborators P IPP IPF) (secret : Int)
    (publicTau1s publicTau2s : List P) (alpha rho : Int) (sL sR : List Int)
    (params : BulletProofSetupParams P IPP)
    (hsL : sL.length = params.N) (hsR : sR.length = params.N) :
    PartialProve.helperErrors env secret publicTau1s publicTau2s alpha rho sL sR params
      = List.replicate 19 none ∧
    ∃ st, PartialProve.intermediates env secret publicTau1s publicTau2s alpha rho sL sR params
        = some st ∧
      st.bl.length = params.N ∧ st.br.length = params.N ∧ st.tprime ≠ none := by
  have haL : (Decompose secret 2 params.N).1.length = params.N := digits_length _ _ _
  have haR : (computeAR (Decompose secret 2 params.N).1).1.length = params.N := by
    simp [computeAR, haL]
  constructor
  · simp only [PartialProve.helperErrors]
    rw [coefficientErrors_none env.ORDER _ _ sL sR _ _ params.N haL haR hsL hsR,
      coefficients_of_lengths env.ORDER _ _ sL sR _ _ params.N haL haR hsL hsR]
    simp only
    rw [vectorErrors_none env.ORDER _ _ sL sR _ _ _ params.N haL haR hsL hsR]
    rfl
  · obtain ⟨st, t, hst, -, -, hbl, hbr, -, ht, -⟩ := intermediates_valid env secret publicTau1s
      publicTau2s alpha rho sL sR params hsL hsR
    exact ⟨st, hst, hbl, hbr, by rw [ht]; simp⟩

/-- Witness of C19: the first toy participant. -/
theorem helper_errors_unreachable_witness :
    PartialProve.helperErrors toyEnv 3 toyPublicTau1s toyPublicTau2s 6 7 [1, 2] [3, 4] toyParams
      = List.replicate 19 none ∧
    ∃ st, PartialProve.intermediates toyEnv 3 toyPublicTau1s toyPublicTau2s 6 7 [1, 2] [3, 4]
        toyParams = some st ∧
      st.bl.length = toyParams.N ∧ st.br.length = toyParams.N ∧ st.tprime ≠ none :=
  helper_errors_unreachable toyEnv 3 toyPublicTau1s toyPublicTau2s 6 7 [1, 2] [3, 4] toyParams
    rfl rfl

/-! ## The polynomial check on an honest run -/

/-- The verifier's polynomial check with the scalars of the claim: z^2, x^2
and delta(y, z) unreduced. -/
theorem check_honest (q : Int) (hord : ∀ p : P, q • p = 0) (B H : P)
    (t taux z x value d t1 t2 sumTau1 sumTau2 sumBlinds : Int)
    (ht : (t : ZMod q.natAbs) = (z : ZMod q.natAbs) * z * value + (d % q : Int) + t1 * x
      + t2 * x ^ 2)
    (htaux : (taux : ZMod q.natAbs) = (sumTau2 : ZMod q.natAbs) * x ^ 2 + sumTau1 * x
      + z * z * sumBlinds) :
    t • B + taux • H =
      (z ^ 2) • (value • B + sumBlinds • H) + (d % q) • B
        + x • (t1 • B + sumTau1 • H) + (x ^ 2) • (t2 • B + sumTau2 • H) := by
  have e1 : t • B = (z * z * value + d % q + t1 * x + t2 * x ^ 2) • B :=
    smul_congr_of_cast q hord _ _ (by rw [ht]; push_cast; ring) B
  have e2 : taux • H = (sumTau2 * x ^ 2 + sumTau1 * x + z * z * sumBlinds) • H :=
    smul_congr_of_cast q hord _ _ (by rw [htaux]; push_cast; ring) H
  rw [e1, e2]
  module

/-- C17. The verifier's polynomial check holds for honest runs: with a secret
`v` of `[0, 2^N)`, V = v.G + (sum of gamma_i).H and the broadcasts tau1_i.H,
tau2_i.H of `StartMPC`, every `PartialProve` call of the run succeeds and the
proof aggregated on any of the resulting contexts satisfies
Tprime.G + Taux.H = z^2.V + delta(y,z).G + x.T1 + x^2.T2 in the group, where
delta(y,z) = (z - z^2).< 1, y^n > - z^3.< 1, 2^n > mod ORDER, (y, z) = HashBP(A, S)
and x is the first component of HashBP(T1, T2). -/
theorem polynomial_check_honest (env : Collaborators P IPP IPF)
    (params : BulletProofSetupParams P IPP) (value : Int) (blinds : List Int)
    (samples : List (RandInt env.ORDER × RandInt env.ORDER)) (alpha rho : Int)
    (sL sR : List Int)
    (hord : ∀ p : P, env.ORDER • p = 0)
    (hv0 : 0 ≤ value) (hv : value < 2 ^ params.N)
    (hsL : sL.length = params.N) (hsR : sR.length = params.N)
    (hM : samples.length = blinds.length)
    (hsetup : ∀ y tprime, (env.setupInnerProduct params.H params.Gg
      (env.updateGenerators params.Hh y params.N) tprime params.N).2 = none) :
    ∃ contexts1 tauxs,
      proveAll env value
        ((samples.map (fun s => StartMPC env params s.1 s.2)).map (fun r => r.2.1))
        ((samples.map (fun s => StartMPC env params s.1 s.2)).map (fun r => r.2.2))
        alpha rho sL sR params
        ((samples.map (fun s => StartMPC env params s.1 s.2)).map (fun r => r.1)) blinds
        = some (contexts1, tauxs) ∧
      contexts1.length = blinds.length ∧
      ∀ context ∈ contexts1, ∃ V A S T1 T2 Tprime Taux,
        V = (CommitG1 env value blinds.sum params.H).1 ∧
        (Aggregate context V tauxs).2.1.V = some V ∧
        (Aggregate context V tauxs).2.1.A = some A ∧
        (Aggregate context V tauxs).2.1.S = some S ∧
        (Aggregate context V tauxs).2.1.T1 = some T1 ∧
        (Aggregate context V tauxs).2.1.T2 = some T2 ∧
        (Aggregate context V tauxs).2.1.Tprime = some Tprime ∧
        (Aggregate context V tauxs).2.1.Taux = some Taux ∧
        Multiply (ScalarBaseMult env Tprime) (ScalarMult params.H Taux) =
          Multiply (Multiply (Multiply
            (ScalarMult V ((env.HashBP A S).2.1 ^ 2))
            (ScalarBaseMult env
              (specDelta (env.HashBP A S).1 (env.HashBP A S).2.1 params.N % env.ORDER)))
            (ScalarMult T1 (env.HashBP T1 T2).1))
            (ScalarMult T2 ((env.HashBP T1 T2).1 ^ 2)) := by
  obtain ⟨st, t, hst, hT1, hT2, hbl, hbr, htp, htp1, hid⟩ := intermediates_valid env value
    ((samples.map (fun s => StartMPC env params s.1 s.2)).map (fun r => r.2.1))
    ((samples.map (fun s => StartMPC env params s.1 s.2)).map (fun r => r.2.2))
    alpha rho sL sR params hsL hsR
  obtain ⟨hy, hz, hx⟩ := intermediates_challenges env value _ _ alpha rho sL sR params st hst
  rcases hsu : env.setupInnerProduct params.H params.Gg
      (env.updateGenerators params.Hh st.y params.N) st.tprime params.N with ⟨ipp, e⟩
  have he : e = none := by
    have h := hsetup st.y st.tprime
    rw [hsu] at h
    exact h
  subst he
  obtain ⟨contexts1, hall, hlen1, hfields⟩ := proveAll_spec env value _ _ alpha rho sL sR params
    st ipp hst hsu ((samples.map (fun s => StartMPC env params s.1 s.2)).map (fun r => r.1))
    blinds (by simp [hM])
  refine ⟨contexts1, _, hall, by rw [hlen1]; simp [hM], ?_⟩
  intro context hmem
  obtain ⟨hA, hS, hcT1, hcT2, hTp, -, -⟩ := hfields context hmem
  refine ⟨_, st.A, st.S, st.T1, st.T2, t, _, rfl, rfl, hA, hS, hcT1, hcT2,
    by rw [← htp1]; exact hTp, rfl, ?_⟩
  have hpub1 : ((samples.map (fun s => StartMPC env params s.1 s.2)).map (fun r => r.2.1)).sum
      = ((samples.map (fun s => s.1.val)).sum) • params.H := by
    rw [List.map_map, ← sum_map_ScalarMult]
    rfl
  have hpub2 : ((samples.map (fun s => StartMPC env params s.1 s.2)).map (fun r => r.2.2)).sum
      = ((samples.map (fun s => s.2.val)).sum) • params.H := by
    rw [List.map_map, ← sum_map_ScalarMult]
    rfl
  have htaux := cast_sum_taux env.ORDER st.x st.z
    ((samples.map (fun s => StartMPC env params s.1 s.2)).map (fun r => r.1)) blinds
    (by simp [hM])
  have hc1 : ((samples.map (fun s => StartMPC env params s.1 s.2)).map (fun r => r.1)).map
      (fun c => c.tau1) = samples.map (fun s => s.1.val) := by
    simp only [List.map_map]
    rfl
  have hc2 : ((samples.map (fun s => StartMPC env params s.1 s.2)).map (fun r => r.1)).map
      (fun c => c.tau2) = samples.map (fun s => s.2.val) := by
    simp only [List.map_map]
    rfl
  rw [hc1, hc2] at htaux
  have hid1 := hid value.toNat (Int.toNat_of_nonneg hv0).symm
      (by
        have h2 : ((value.toNat : Nat) : Int) < ((2 ^ params.N : Nat) : Int) := by
          rw [Int.toNat_of_nonneg hv0]
          exact_mod_cast hv
        exact_mod_cast h2)
  rw [delta_spec] at hid1
  rw [← hz, ← hy, ← hx]
  simp only [CommitG1, Multiply, ScalarMult, ScalarBaseMult, Aggregate, hT1, hT2, foldl_Multiply,
    foldl_Add, zero_add, hpub1, hpub2]
  exact check_honest env.ORDER hord env.base params.H t _ st.z st.x value _ st.t1 st.t2 _ _ _
    hid1 htaux

/-- Witness of C17: the run of the two toy participants on the secret 3. -/
theorem polynomial_check_honest_witness :
    ∃ contexts1 tauxs,
      proveAll toyEnv 3
        ((toySamples.map (fun s => StartMPC toyEnv toyParams s.1 s.2)).map (fun r => r.2.1))
        ((toySamples.map (fun s => StartMPC toyEnv toyParams s.1 s.2)).map (fun r => r.2.2))
        6 7 [1, 2] [3, 4] toyParams
        ((toySamples.map (fun s => StartMPC toyEnv toyParams s.1 s.2)).map (fun r => r.1)) [5, 9]
        = some (contexts1, tauxs) ∧
      contexts1.length = ([5, 9] : List Int).length ∧
      ∀ context ∈ contexts1, ∃ V A S T1 T2 Tprime Taux,
        V = (CommitG1 toyEnv 3 ([5, 9] : List Int).sum toyParams.H).1 ∧
        (Aggregate context V tauxs).2.1.V = some V ∧
        (Aggregate context V tauxs).2.1.A = some A ∧
        (Aggregate context V tauxs).2.1.S = some S ∧
        (Aggregate context V tauxs).2.1.T1 = some T1 ∧
        (Aggregate context V tauxs).2.1.T2 = some T2 ∧
        (Aggregate context V tauxs).2.1.Tprime = some Tprime ∧
        (Aggregate context V tauxs).2.1.Taux = some Taux ∧
        Multiply (ScalarBaseMult toyEnv Tprime) (ScalarMult toyParams.H Taux) =
          Multiply (Multiply (Multiply
            (ScalarMult V ((toyEnv.HashBP A S).2.1 ^ 2))
            (ScalarBaseMult toyEnv
              (specDelta (toyEnv.HashBP A S).1 (toyEnv.HashBP A S).2.1 toyParams.N
                % toyEnv.ORDER)))
            (ScalarMult T1 (toyEnv.HashBP T1 T2).1))
            (ScalarMult T2 ((toyEnv.HashBP T1 T2).1 ^ 2)) :=
  polynomial_check_honest toyEnv toyParams 3 [5, 9] toySamples 6 7 [1, 2] [3, 4] toy_order
    (by decide) (by decide) rfl rfl rfl toy_setup

/-! ## The verifier's commitment check -/

/-- A vector of points of length `N` is given by its entries at the indices
below `N`. -/
theorem eq_map_range_points (l : List P) (N : Nat) (h : l.length = N) :
    l = (List.range N).map (fun i => l.getD i 0) := by
  subst h
  apply List.ext_getElem
  · simp
  · intro i h1 h2
    simp [List.getD_eq_getElem?_getD, List.getElem?_eq_getElem h1]

/-- The loop of `VectorExp` on vectors given index by index. -/
theorem VectorExp_loop_map {α : Type} (g : α → P) (e : α → Int) (rows : List α) :
    VectorExp.loop (rows.map g) (rows.map e) = (rows.map (fun i => e i • g i)).sum := by
  simp only [VectorExp.loop, zipWith_map_same, foldl_Multiply, zero_add, ScalarMult]

/-- The entries of the vectors `bl` and `br` of lines 96-106, as residues. -/
theorem vectors_entries_cols {α : Type} (q : Int) (rows : List α) (a b s r Y T : α → Int)
    (y z x : Int) (N : Nat) (hN : N = rows.length)
    (hvy : powerOf q y N = rows.map Y) (hp2 : powerOf q 2 N = rows.map T) :
    ∃ bl br : α → Int,
      (PartialProve.vectors q (rows.map a) (rows.map b) (rows.map s) (rows.map r)
        y z x N).1 = rows.map bl ∧
      (PartialProve.vectors q (rows.map a) (rows.map b) (rows.map s) (rows.map r)
        y z x N).2.1 = rows.map br ∧
      ∀ i, (bl i : ZMod q.natAbs) = (a i : ZMod q.natAbs) - z + s i * x ∧
        (br i : ZMod q.natAbs) = (Y i : ZMod q.natAbs) * (b i + z + r i * x) + z * z * T i := by
  subst hN
  simp only [PartialProve.vectors]
  rw [hvy, hp2]
  simp only [VectorCopy_map, VectorConvertToBig_map, VectorSub_map, VectorAdd_map,
    VectorMul_map, VectorScalarMul_map, ScalarProduct_map]
  refine ⟨_, _, rfl, rfl, fun i => ⟨?_, ?_⟩⟩
  · simp only [cast_Mod, Int.cast_add, bn.Add, bn.Multiply, Int.cast_mul, Int.cast_sub]
  · simp only [cast_Mod, Int.cast_add, bn.Add, bn.Multiply, Int.cast_mul, Int.cast_sub]
    ring

/-- Conditions (66) and (67) index by index: the generator parts of A and S, of
g^(-z) and of h'^(z.y^n + z^2.2^n) add up to the inner-product commitment
g^bl.h'^br, when the updated generators satisfy Y_i.h'_i = Hh_i. -/
theorem commitment_rows {α : Type} (q : Int) (hord : ∀ p : P, q • p = 0) (rows : List α)
    (G Hh H' : α → P) (a b s r Y T bl br mz e : α → Int) (z x : Int)
    (hgen : ∀ i ∈ rows, Y i • H' i = Hh i)
    (hbl : ∀ i, (bl i : ZMod q.natAbs) = (a i : ZMod q.natAbs) - z + s i * x)
    (hbr : ∀ i, (br i : ZMod q.natAbs)
      = (Y i : ZMod q.natAbs) * (b i + z + r i * x) + z * z * T i)
    (hmz : ∀ i, (mz i : ZMod q.natAbs) = -(z : ZMod q.natAbs))
    (he : ∀ i, (e i : ZMod q.natAbs) = (Y i : ZMod q.natAbs) * z + T i * (z * z)) :
    (rows.map (fun i => a i • G i)).sum + (rows.map (fun i => b i • Hh i)).sum
      + x • ((rows.map (fun i => s i • G i)).sum + (rows.map (fun i => r i • Hh i)).sum)
      + (rows.map (fun i => mz i • G i)).sum + (rows.map (fun i => e i • H' i)).sum
    = (rows.map (fun i => bl i • G i)).sum + (rows.map (fun i => br i • H' i)).sum := by
  induction rows with
  | nil => simp
  | cons i rows ih =>
    have ih1 := ih (fun j hj => hgen j (List.mem_cons_of_mem _ hj))
    have hg := hgen i (List.mem_cons_self _ _)
    have e1 : bl i • G i = (a i - z + s i * x) • G i :=
      smul_congr_of_cast q hord _ _ (by rw [hbl]; push_cast; ring) _
    have e2 : br i • H' i = (Y i * (b i + z + r i * x) + z * z * T i) • H' i :=
      smul_congr_of_cast q hord _ _ (by rw [hbr]; push_cast; ring) _
    have e3 : mz i • G i = (-z) • G i :=
      smul_congr_of_cast q hord _ _ (by rw [hmz]; push_cast; ring) _
    have e4 : e i • H' i = (Y i * z + T i * (z * z)) • H' i :=
      smul_congr_of_cast q hord _ _ (by rw [he]; push_cast; ring) _
    simp only [List.map_cons, List.sum_cons]
    have h2 : (rows.map (fun i => br i • H' i)).sum
        = (rows.map (fun i => a i • G i)).sum + (rows.map (fun i => b i • Hh i)).sum
          + x • ((rows.map (fun i => s i • G i)).sum + (rows.map (fun i => r i • Hh i)).sum)
          + (rows.map (fun i => mz i • G i)).sum + (rows.map (fun i => e i • H' i)).sum
          - (rows.map (fun i => bl i • G i)).sum := by
      rw [ih1]
      abel
    rw [e1, e2, e3, e4, h2, ← hg]
    module

/-- Conditions (66) and (67) on vectors given index by index: with commitments
of the contracted form and updated generators with Y_i.h'_i = Hh_i, the point
A.S^x.g^(-z).h'^(z.y^n + z^2.2^n) is h^mu.g^bl.h'^br. -/
theorem commitment_check_rows {α : Type} (q : Int) (hord : ∀ p : P, q • p = 0) (rows : List α)
    (N : Nat) (hN : N = rows.length) (G Hh H' : α → P) (a b s r Y T : α → Int) (H : P)
    (alpha rho y z x : Int)
    (hvy : powerOf q y N = rows.map Y) (hp2 : powerOf q 2 N = rows.map T)
    (hgen : ∀ i ∈ rows, Y i • H' i = Hh i) :
    Multiply (Multiply (Multiply
        (Multiply (Multiply (ScalarMult H alpha) (VectorExp.loop (rows.map G) (rows.map a)))
          (VectorExp.loop (rows.map Hh) (rows.map b)))
        (ScalarMult (Multiply (Multiply (ScalarMult H rho)
            (VectorExp.loop (rows.map G) (rows.map s)))
          (VectorExp.loop (rows.map Hh) (rows.map r))) x))
        (VectorExp.loop (rows.map G) (VectorCopy (q - z) N).1))
        (VectorExp.loop (rows.map H')
          (VectorAdd q (VectorMul q (powerOf q y N) (VectorCopy z N).1).1
            (VectorScalarMul q (powerOf q 2 N) (bn.Multiply z z)).1).1)
      = Multiply (ScalarMult H (PartialProve.mu q alpha rho x))
          (Multiply
            (VectorExp.loop (rows.map G) (PartialProve.vectors q (rows.map a) (rows.map b)
              (rows.map s) (rows.map r) y z x N).1)
            (VectorExp.loop (rows.map H') (PartialProve.vectors q (rows.map a) (rows.map b)
              (rows.map s) (rows.map r) y z x N).2.1)) := by
  obtain ⟨bl, br, hbl, hbr, hent⟩ := vectors_entries_cols q rows a b s r Y T y z x N hN hvy hp2
  rw [hbl, hbr, hvy, hp2]
  subst hN
  simp only [VectorCopy_map, VectorAdd_map, VectorMul_map, VectorScalarMul_map,
    VectorExp_loop_map, Multiply, ScalarMult]
  have key := commitment_rows q hord rows G Hh H' a b s r Y T bl br (fun _ => q - z)
    (fun i => bn.Mod (bn.Add (bn.Mod (bn.Multiply (Y i) z) q)
      (bn.Mod (bn.Multiply (T i) (bn.Multiply z z)) q)) q) z x hgen
    (fun i => (hent i).1) (fun i => (hent i).2)
    (fun i => by simp [cast_order])
    (fun i => by
      simp only [cast_Mod, Int.cast_add, bn.Add, bn.Multiply, Int.cast_mul])
  have hmu : PartialProve.mu q alpha rho x • H = (rho * x + alpha) • H :=
    smul_congr_of_cast q hord _ _ (by simp [PartialProve.mu, cast_Mod, bn.Add, bn.Multiply]) H
  rw [hmu, ← key]
  module

/-- Conditions (66) and (67) for the values of an honest `PartialProve` call:
under the contracts of the commitments and of the generator update, the point
the verifier computes from A, S and the challenges is h^mu.Commit. -/
theorem commitment_check (env : Collaborators P IPP IPF) (params : BulletProofSetupParams P IPP)
    (aL aR sL sR : List Int) (alpha rho y z x : Int)
    (hord : ∀ p : P, env.ORDER • p = 0)
    (haL : aL.length = params.N) (haR : aR.length = params.N)
    (hsL : sL.length = params.N) (hsR : sR.length = params.N)
    (hGg : params.Gg.length = params.N) (hHh : params.Hh.length = params.N)
    (hbl : (PartialProve.vectors env.ORDER aL aR sL sR y z x params.N).1.length = params.N)
    (hbr : (PartialProve.vectors env.ORDER aL aR sL sR y z x params.N).2.1.length = params.N)
    (hcommit : CommitContract env params) (hgen : GeneratorContract env params y) :
    Multiply (Multiply (Multiply
        (env.commitVector aL aR alpha params.H params.Gg params.Hh params.N)
        (ScalarMult (env.commitVectorBig sL sR rho params.H params.Gg params.Hh params.N) x))
        (VectorExp.loop params.Gg (VectorCopy (env.ORDER - z) params.N).1))
        (VectorExp.loop (env.updateGenerators params.Hh y params.N)
          (VectorAdd env.ORDER
            (VectorMul env.ORDER (powerOf env.ORDER y params.N) (VectorCopy z params.N).1).1
            (VectorScalarMul env.ORDER (powerOf env.ORDER 2 params.N) (bn.Multiply z z)).1).1)
      = Multiply (ScalarMult params.H (PartialProve.mu env.ORDER alpha rho x))
          (env.commitInnerProduct params.Gg (env.updateGenerators params.Hh y params.N)
            (PartialProve.vectors env.ORDER aL aR sL sR y z x params.N).1
            (PartialProve.vectors env.ORDER aL aR sL sR y z x params.N).2.1) := by
  obtain ⟨hA, hS, hC⟩ := hcommit
  obtain ⟨hlen, hzip⟩ := hgen
  rw [hA aL aR alpha haL haR, hS sL sR rho hsL hsR, hC _ _ _ hlen hbl hbr]
  generalize env.updateGenerators params.Hh y params.N = hprime at hlen hzip ⊢
  have hgen1 : ∀ i ∈ List.range params.N,
      (powerOf env.ORDER y params.N).getD i 0 • hprime.getD i 0 = params.Hh.getD i 0 := by
    intro i hi
    have hi1 : i < params.N := List.mem_range.mp hi
    rw [eq_map_range_points hprime params.N hlen, eq_map_range_points params.Hh params.N hHh,
      specPowers, zipWith_map_same] at hzip
    have h1 := List.map_inj_left.mp hzip i hi
    simp only [ScalarMult] at h1
    rw [← h1]
    exact smul_congr_of_cast env.ORDER hord _ (y ^ i)
      (by rw [cast_powerOf_getD env.ORDER y params.N i hi1]; push_cast; rfl) _
  have key := commitment_check_rows env.ORDER hord (List.range params.N) params.N (by simp)
    (fun i => params.Gg.getD i 0) (fun i => params.Hh.getD i 0)
    (fun i => hprime.getD i 0)
    (fun i => aL.getD i 0) (fun i => aR.getD i 0) (fun i => sL.getD i 0) (fun i => sR.getD i 0)
    (fun i => (powerOf env.ORDER y params.N).getD i 0)
    (fun i => (powerOf env.ORDER 2 params.N).getD i 0) params.H alpha rho y z x
    (eq_map_range _ params.N (powerOf_length _ _ _))
    (eq_map_range _ params.N (powerOf_length _ _ _)) hgen1
  rw [← eq_map_range_points params.Gg params.N hGg, ← eq_map_range_points params.Hh params.N hHh,
    ← eq_map_range_points hprime params.N hlen, ← eq_map_range aL params.N haL,
    ← eq_map_range aR params.N haR, ← eq_map_range sL params.N hsL,
    ← eq_map_range sR params.N hsR] at key
  exact key

/-! ## The verifier on a protocol run -/

/-- `VectorExp` on vectors of equal length succeeds with the result of its loop. -/
theorem VectorExp_of_length (a : List P) (b : List Int) (h : a.length = b.length) :
    VectorExp a b = (some (VectorExp.loop a b), none) := by
  simp [VectorExp, h]

/-- The commitments kept in the intermediate values are those of lines 40-41,
and the challenges kept are those of line 44. -/
theorem intermediates_commitments (env : Collaborators P IPP IPF) (secret : Int)
    (publicTau1s publicTau2s : List P) (alpha rho : Int) (sL sR : List Int)
    (params : BulletProofSetupParams P IPP) (st : Intermediates P)
    (h : PartialProve.intermediates env secret publicTau1s publicTau2s alpha rho sL sR params
      = some st) :
    st.A = env.commitVector st.aL st.aR alpha params.H params.Gg params.Hh params.N ∧
    st.S = env.commitVectorBig sL sR rho params.H params.Gg params.Hh params.N ∧
    st.y = (PartialProve.challenges env secret alpha rho sL sR params).1 ∧
    st.z = (PartialProve.challenges env secret alpha rho sL sR params).2 := by
  simp only [PartialProve.intermediates] at h
  split at h
  · exact absurd h (by simp)
  · simp only [Option.some.injEq] at h
    subst h
    exact ⟨rfl, rfl, rfl, rfl⟩

/-- Every context the loop of `PartialProve` calls returns holds the same `Mu`
and the same inner-product commitment. -/
theorem proveAll_commit (env : Collaborators P IPP IPF) (value : Int)
    (publicTau1s publicTau2s : List P) (alpha rho : Int) (sL sR : List Int)
    (params : BulletProofSetupParams P IPP) (st : Intermediates P) (ipp : IPP)
    (hst : PartialProve.intermediates env value publicTau1s publicTau2s alpha rho sL sR params
      = some st)
    (hsu : env.setupInnerProduct params.H params.Gg
        (env.updateGenerators params.Hh st.y params.N) st.tprime params.N = (ipp, none))
    (contexts : List (MPCContext P IPP IPF)) (blinds : List Int)
    (hlen : contexts.length = blinds.length) :
    ∃ contexts1 tauxs,
      proveAll env value publicTau1s publicTau2s alpha rho sL sR params contexts blinds
        = some (contexts1, tauxs) ∧
      ∀ c ∈ contexts1, c.Mu = some (PartialProve.mu env.ORDER alpha rho st.x) ∧
        c.Commit = some (env.commitInnerProduct params.Gg
          (env.updateGenerators params.Hh st.y params.N) st.bl st.br) := by
  induction contexts generalizing blinds with
  | nil => exact ⟨[], [], by simp [proveAll], by simp⟩
  | cons c contexts ih =>
    match blinds, hlen with
    | g :: blinds, hlen =>
      simp only [List.length_cons, Nat.add_right_cancel_iff] at hlen
      obtain ⟨cs1, ts, h1, h3⟩ := ih blinds hlen
      have hp := PartialProve_of_intermediates env c value g publicTau1s publicTau2s alpha rho
        sL sR params st hst
      rw [hsu] at hp
      simp only [proveAll, hp, h1]
      refine ⟨_, _, rfl, ?_⟩
      intro c1 hc1
      rcases List.mem_cons.mp hc1 with hc1 | hc1
      · subst hc1
        exact ⟨rfl, rfl⟩
      · exact h3 c1 hc1

/-- The outcome of a protocol run whose participants may pass blinding shares
other than the committed ones, on parameters whose generator vector Gg and
updated generators have length N: no step panics or fails, and the verifier
returns the conjunction of its three conditions. Condition (65) holds exactly
when z^2.(sum of the shares passed - sum of the shares committed).H is the
identity; conditions (66), (67) hold under the contracts of the commitments and
of the generator update; the inner-product proof is accepted by a complete
inner-product argument. -/
theorem runProtocolV_outcome [DecidableEq P] (env : Collaborators P IPP IPF)
    (params : BulletProofSetupParams P IPP) (value : Int) (committed blinds : List Int)
    (samples : List (RandInt env.ORDER × RandInt env.ORDER)) (alpha rho : Int)
    (sL sR : List Int) (k : Nat)
    (hord : ∀ p : P, env.ORDER • p = 0)
    (hv0 : 0 ≤ value) (hv : value < 2 ^ params.N)
    (hsL : sL.length = params.N) (hsR : sR.length = params.N)
    (hM : samples.length = blinds.length) (hk : k < blinds.length)
    (hGg : params.Gg.length = params.N)
    (hgl : (env.updateGenerators params.Hh
      (PartialProve.challenges env value alpha rho sL sR params).1 params.N).length = params.N)
    (hsetup : ∀ y tprime, (env.setupInnerProduct params.H params.Gg
      (env.updateGenerators params.Hh y params.N) tprime params.N).2 = none) :
    ∃ c67 ok : Bool,
      runProtocolV env params value committed blinds samples alpha rho sL sR k
        = some (decide (((PartialProve.challenges env value alpha rho sL sR params).2
            * (PartialProve.challenges env value alpha rho sL sR params).2
            * (blinds.sum - committed.sum)) • params.H = 0) && c67 && ok, none) ∧
      (params.Hh.length = params.N → CommitContract env params →
        GeneratorContract env params (PartialProve.challenges env value alpha rho sL sR params).1 →
        c67 = true) ∧
      ((∀ bl br hprime ipp, bl.length = params.N → br.length = params.N →
        env.setupInnerProduct params.H params.Gg hprime (ScalarProduct env.ORDER bl br).1
          params.N = (ipp, none) →
        (env.verifyInnerProduct (env.proveInnerProduct bl br
          (env.commitInnerProduct params.Gg hprime bl br) ipp).1).1 = true) → ok = true) := by
  obtain ⟨st, t, hst, hT1, hT2, hbl, hbr, htp, htp1, hid⟩ := intermediates_valid env value
    ((samples.map (fun s => StartMPC env params s.1 s.2)).map (fun r => r.2.1))
    ((samples.map (fun s => StartMPC env params s.1 s.2)).map (fun r => r.2.2))
    alpha rho sL sR params hsL hsR
  obtain ⟨hy, hz, hx⟩ := intermediates_challenges env value _ _ alpha rho sL sR params st hst
  obtain ⟨hstA, hstS, hcy, hcz⟩ := intermediates_commitments env value _ _ alpha rho sL sR
    params st hst
  obtain ⟨haL, haR, -, -, -, hvec⟩ := intermediates_stages env value _ _ alpha rho sL sR
    params st hst
  rw [← hcy] at hgl
  rw [← hcy, ← hcz]
  rcases hsu : env.setupInnerProduct params.H params.Gg
      (env.updateGenerators params.Hh st.y params.N) st.tprime params.N with ⟨ipp, e⟩
  have he : e = none := by
    have h := hsetup st.y st.tprime
    rw [hsu] at h
    exact h
  subst he
  obtain ⟨contexts1, hall, hlen1, hfields⟩ := proveAll_spec env value _ _ alpha rho sL sR params
    st ipp hst hsu ((samples.map (fun s => StartMPC env params s.1 s.2)).map (fun r => r.1))
    blinds (by simp [hM])
  obtain ⟨contexts2, tauxs2, hall2, hfields2⟩ := proveAll_commit env value _ _ alpha rho sL sR
    params st ipp hst hsu
    ((samples.map (fun s => StartMPC env params s.1 s.2)).map (fun r => r.1)) blinds
    (by simp [hM])
  have hc12 : contexts2 = contexts1 := by
    rw [hall] at hall2
    simp only [Option.some.injEq, Prod.mk.injEq] at hall2
    exact hall2.1.symm
  subst hc12
  have hk1 : k < contexts2.length := by rw [hlen1]; simpa [hM] using hk
  obtain ⟨hA, hS, hcT1, hcT2, hTp, hIP, hPa⟩ := hfields _ (List.getElem_mem hk1)
  obtain ⟨hMu, hCo⟩ := hfields2 _ (List.getElem_mem hk1)
  have hl1 : params.Gg.length = (VectorCopy (env.ORDER - st.z) params.N).1.length := by
    rw [VectorCopy_length, hGg]
  have hl2 : (env.updateGenerators params.Hh st.y params.N).length
      = (VectorAdd env.ORDER
          (VectorMul env.ORDER (powerOf env.ORDER st.y params.N) (VectorCopy st.z params.N).1).1
          (VectorScalarMul env.ORDER (powerOf env.ORDER 2 params.N)
            (bn.Multiply st.z st.z)).1).1.length := by
    rw [hgl]
    simp [VectorAdd_length, VectorMul_length, VectorScalarMul_length, VectorCopy_length,
      powerOf_length]
  refine ⟨decide (Multiply (Multiply (Multiply st.A (ScalarMult st.S st.x))
        (VectorExp.loop params.Gg (VectorCopy (env.ORDER - st.z) params.N).1))
        (VectorExp.loop (env.updateGenerators params.Hh st.y params.N)
          (VectorAdd env.ORDER
            (VectorMul env.ORDER (powerOf env.ORDER st.y params.N)
              (VectorCopy st.z params.N).1).1
            (VectorScalarMul env.ORDER (powerOf env.ORDER 2 params.N)
              (bn.Multiply st.z st.z)).1).1)
      = Multiply (ScalarMult params.H (PartialProve.mu env.ORDER alpha rho st.x))
          (env.commitInnerProduct params.Gg (env.updateGenerators params.Hh st.y params.N)
            st.bl st.br)),
    (env.verifyInnerProduct (env.proveInnerProduct st.bl st.br
      (env.commitInnerProduct params.Gg (env.updateGenerators params.Hh st.y params.N)
        st.bl st.br) ipp).1).1, ?_, ?_, ?_⟩
  · unfold runProtocolV
    simp only [hall, List.getElem?_eq_getElem hk1]
    simp only [BulletProof.Verify, Aggregate, hA, hS, hcT1, hcT2, hTp, hIP, hPa, htp1, hMu, hCo]
    rw [← hz, ← hy, ← hx, VectorExp_of_length _ _ hl1, VectorExp_of_length _ _ hl2]
    simp only []
    refine congrArg (fun b => some (b && _ && _, none)) (decide_eq_decide.mpr ?_)
    have hpub1 : ((samples.map (fun s => StartMPC env params s.1 s.2)).map (fun r => r.2.1)).sum
        = ((samples.map (fun s => s.1.val)).sum) • params.H := by
      rw [List.map_map, ← sum_map_ScalarMult]
      rfl
    have hpub2 : ((samples.map (fun s => StartMPC env params s.1 s.2)).map (fun r => r.2.2)).sum
        = ((samples.map (fun s => s.2.val)).sum) • params.H := by
      rw [List.map_map, ← sum_map_ScalarMult]
      rfl
    have htaux := cast_sum_taux env.ORDER st.x st.z
      ((samples.map (fun s => StartMPC env params s.1 s.2)).map (fun r => r.1)) blinds
      (by simp [hM])
    have hc1 : ((samples.map (fun s => StartMPC env params s.1 s.2)).map (fun r => r.1)).map
        (fun c => c.tau1) = samples.map (fun s => s.1.val) := by
      simp only [List.map_map]
      rfl
    have hc2 : ((samples.map (fun s => StartMPC env params s.1 s.2)).map (fun r => r.1)).map
        (fun c => c.tau2) = samples.map (fun s => s.2.val) := by
      simp only [List.map_map]
      rfl
    rw [hc1, hc2] at htaux
    simp only [CommitG1, Multiply, ScalarMult, ScalarBaseMult, hT1, hT2, foldl_Multiply,
      foldl_Add, zero_add, hpub1, hpub2]
    exact check_iff env.ORDER hord env.base params.H t _ st.z st.x value _ st.t1 st.t2 _ _ _ _
      (hid value.toNat (Int.toNat_of_nonneg hv0).symm
        (by
          have h2 : ((value.toNat : Nat) : Int) < ((2 ^ params.N : Nat) : Int) := by
            rw [Int.toNat_of_nonneg hv0]
            exact_mod_cast hv
          exact_mod_cast h2))
      htaux
  · intro hHh hcommit hgen
    have haLl : st.aL.length = params.N := by rw [haL]; exact digits_length _ _ _
    have haRl : st.aR.length = params.N := by rw [haR]; simp [computeAR, haLl]
    have hvb : st.bl = (PartialProve.vectors env.ORDER st.aL st.aR sL sR st.y st.z st.x
        params.N).1 := by rw [hvec]
    have hvr : st.br = (PartialProve.vectors env.ORDER st.aL st.aR sL sR st.y st.z st.x
        params.N).2.1 := by rw [hvec]
    rw [decide_eq_true_eq, hstA, hstS, hvb, hvr]
    exact commitment_check env params st.aL st.aR sL sR alpha rho st.y st.z st.x hord haLl haRl
      hsL hsR hGg hHh (by rw [← hvb]; exact hbl) (by rw [← hvr]; exact hbr) hcommit hgen
  · intro hip
    exact hip st.bl st.br _ ipp hbl hbr (by rw [← htp]; exact hsu)

/-! ## The toy instance meets the contracts -/

/-- The toy vector commitment has the contracted form. -/
theorem toyCommit_eq (a b : List Int) (r : Int) (h : ZMod 11) (g hh : List (ZMod 11)) (n : Nat) :
    toyCommit a b r h g hh n
      = Multiply (Multiply (ScalarMult h r) (VectorExp.loop g a)) (VectorExp.loop hh b) := by
  have hc : ∀ (a : List Int) (g : List (ZMod 11)),
      List.zipWith (fun s p => s • p) a g = List.zipWith ScalarMult g a := by
    intro a
    induction a with
    | nil => intro g; simp
    | cons s a ih =>
      intro g
      cases g with
      | nil => simp
      | cons p g => simp only [List.zipWith_cons_cons, ih g, ScalarMult]
  simp only [toyCommit, VectorExp.loop, foldl_Multiply, zero_add, Multiply, ScalarMult, hc]

/-- The commitments of the toy collaborators meet their contract. -/
theorem toy_commit_contract : CommitContract toyEnvInverse toyParams := by
  refine ⟨fun aL aR alpha _ _ => toyCommit_eq aL aR alpha toyParams.H toyParams.Gg toyParams.Hh
      toyParams.N,
    fun sL sR rho _ _ => toyCommit_eq sL sR rho toyParams.H toyParams.Gg toyParams.Hh
      toyParams.N,
    fun hprime bl br _ _ _ => ?_⟩
  have h := toyCommit_eq bl br 0 0 toyParams.Gg hprime 0
  simp only [ScalarMult, smul_zero, Multiply, zero_add] at h
  exact h

/-- The inner-product setup of the toy collaborators succeeds on the toy
parameters. -/
theorem toy_setup_inverse (y : Int) (tprime : Option Int) :
    (toyEnvInverse.setupInnerProduct toyParams.H toyParams.Gg
      (toyEnvInverse.updateGenerators toyParams.Hh y toyParams.N) tprime toyParams.N).2
      = none := by
  simp [toyEnvInverse, toyEnv, toyParams, toySetupInnerProduct, toyUpdateGenerators,
    powerOf_length]

/-- The toy field order is prime. -/
theorem toy_prime : Prime toyEnvInverse.ORDER :=
  Int.prime_iff_natAbs_prime.mpr (by norm_num [toyEnvInverse, toyEnv])

/-- In a group of prime order ORDER a point other than the identity has order
ORDER. -/
theorem dvd_of_smul_eq_zero (q : Int) (hord : ∀ p : P, q • p = 0) (hq : Prime q) (H : P)
    (hH : H ≠ 0) (s : Int) (h : s • H = 0) : q ∣ s := by
  by_contra hnd
  obtain ⟨a, b, hab⟩ := (Prime.coprime_iff_not_dvd hq).mpr hnd
  apply hH
  have h1 : (a * q + b * s) • H = 0 := by
    rw [add_smul, mul_smul, mul_smul, hord, h, smul_zero, smul_zero, add_zero]
  rw [hab, one_smul] at h1
  exact h1

/-! ## Completeness and sensitivity of the protocol run -/

/-- Replacing one entry of a list changes its sum by the difference of the
entries. -/
theorem sum_set_sub (l : List Int) (i : Nat) (g g1 : Int) (h : l[i]? = some g) :
    (l.set i g1).sum - l.sum = g1 - g := by
  induction l generalizing i with
  | nil => simp at h
  | cons a l ih =>
    cases i with
    | zero =>
      simp only [List.getElem?_cons_zero, Option.some.injEq] at h
      simp only [List.set_cons_zero, List.sum_cons, h]
      ring
    | succ i =>
      simp only [List.getElem?_cons_succ] at h
      simp only [List.set_cons_succ, List.sum_cons]
      have := ih i h
      linarith

/-- Apart from its challenge `z`, the toy run with the oracle `toyHashZero` is
in the setting of the sensitivity property: the group has prime order 11, H is
not the identity, the generator vector Gg and the updated generators have
length N, the inner-product setup succeeds, and the collaborators meet the
contracts of the commitments and of the generator update. -/
theorem toy_zero_setting :
    (∀ p : ZMod 11, toyEnvZero.ORDER • p = 0) ∧ Prime toyEnvZero.ORDER ∧ toyParams.H ≠ 0 ∧
    toyParams.Gg.length = toyParams.N ∧
    (∀ y tprime, (toyEnvZero.setupInnerProduct toyParams.H toyParams.Gg
      (toyEnvZero.updateGenerators toyParams.Hh y toyParams.N) tprime toyParams.N).2 = none) ∧
    CommitContract toyEnvZero toyParams ∧
    GeneratorContract toyEnvZero toyParams
      (PartialProve.challenges toyEnvZero 3 6 7 [1, 2] [3, 4] toyParams).1 :=
  ⟨toy_order, toy_prime, by decide, rfl, toy_setup_inverse, toy_commit_contract,
    ⟨by decide, by decide⟩⟩

/-- C7 (counterexample). On the toy collaborators with the oracle
`toyHashZero` the challenge `z` of the run is 0. The first participant passes
the blinding share 6 to `PartialProve` while 5 is summed into V: the shares are
different scalars modulo ORDER = 11, and Verify returns true on the aggregated
proof, as it does when the participant passes 5. The run has A = 8, S = 9,
y = 20, z = 0, T1 = 4, T2 = 2, x = 16, Tprime = 2, Mu = 8, Commit = 4, and the
partial scalars are 5 and 7 whichever share the first participant passes. -/
theorem perturbed_gamma_accepted :
    (PartialProve.challenges toyEnvZero 3 6 7 [1, 2] [3, 4] toyParams).2 = 0 ∧
    (6 : Int) % toyEnvZero.ORDER ≠ 5 % toyEnvZero.ORDER ∧
    runProtocolV toyEnvZero toyParams 3 [5, 9] [5, 9] toySamples 6 7 [1, 2] [3, 4] 0
      = some (true, none) ∧
    runProtocolV toyEnvZero toyParams 3 [5, 9] [6, 9] toySamples 6 7 [1, 2] [3, 4] 0
      = some (true, none) := by
  decide

/-- C7 (amended). Soundness sensitivity, for a challenge `z` that is nonzero
modulo ORDER. The setting is that of the specification: ORDER is the prime
order of the group, H is a generator (not the identity), the generator vector
Gg and the updated generators have length N and the inner-product setup
succeeds. If the challenge `z` of an otherwise honest run is nonzero modulo
ORDER and participant `i` calls `PartialProve` with a blinding share `gamma1`
that is a different scalar (different modulo ORDER) from the `gamma` summed
into V (V left unchanged), then Verify on the aggregated proof returns false. -/
theorem perturbed_gamma_rejected [DecidableEq P] (env : Collaborators P IPP IPF)
    (params : BulletProofSetupParams P IPP) (value : Int) (blinds : List Int)
    (samples : List (RandInt env.ORDER × RandInt env.ORDER)) (alpha rho : Int)
    (sL sR : List Int) (k i : Nat) (gamma gamma1 : Int)
    (hord : ∀ p : P, env.ORDER • p = 0) (hprime : Prime env.ORDER) (hH : params.H ≠ 0)
    (hv0 : 0 ≤ value) (hv : value < 2 ^ params.N)
    (hsL : sL.length = params.N) (hsR : sR.length = params.N)
    (hM : samples.length = blinds.length) (hk : k < blinds.length)
    (hGg : params.Gg.length = params.N)
    (hgl : (env.updateGenerators params.Hh
      (PartialProve.challenges env value alpha rho sL sR params).1 params.N).length = params.N)
    (hsetup : ∀ y tprime, (env.setupInnerProduct params.H params.Gg
      (env.updateGenerators params.Hh y params.N) tprime params.N).2 = none)
    (hz : ¬ env.ORDER ∣ (PartialProve.challenges env value alpha rho sL sR params).2)
    (hi : blinds[i]? = some gamma) (hne : ¬ env.ORDER ∣ gamma1 - gamma) :
    runProtocolV env params value blinds (blinds.set i gamma1) samples alpha rho sL sR k
      = some (false, none) := by
  obtain ⟨c67, ok, h, -, -⟩ := runProtocolV_outcome env params value blinds
    (blinds.set i gamma1) samples alpha rho sL sR k hord hv0 hv hsL hsR (by simpa using hM)
    (by simpa using hk) hGg hgl hsetup
  rw [h, sum_set_sub blinds i gamma gamma1 hi]
  have h65 : ¬ ((PartialProve.challenges env value alpha rho sL sR params).2
      * (PartialProve.challenges env value alpha rho sL sR params).2 * (gamma1 - gamma))
        • params.H = 0 := by
    intro h0
    rcases hprime.dvd_mul.mp (dvd_of_smul_eq_zero env.ORDER hord hprime params.H hH _ h0)
      with h1 | h1
    · rcases hprime.dvd_mul.mp h1 with h2 | h2 <;> exact hz h2
    · exact hne h1
  rw [decide_eq_false h65]
  rfl

/-- Witness of C7 (amended): the first toy participant passes 6 instead of 5;
the challenge `z` of the run is 4. -/
theorem perturbed_gamma_rejected_witness :
    runProtocolV toyEnvInverse toyParams 3 [5, 9] ([5, 9].set 0 6) toySamples 6 7 [1, 2] [3, 4] 0
      = some (false, none) :=
  perturbed_gamma_rejected toyEnvInverse toyParams 3 [5, 9] toySamples 6 7 [1, 2] [3, 4] 0 0 5 6
    toy_order toy_prime (by decide) (by decide) (by decide) rfl rfl rfl (by decide) rfl
    (by decide) toy_setup_inverse (by decide) rfl (by decide)

end Properties

end bulletproofs
